import Mathlib

/-!
Verification development for the party-game room managers (a shedding-style
card game, a draw-and-guess game, and a music-timeline game).

Each JavaScript module is shallowly embedded: JS objects become structures,
JS `Map`s become insertion-ordered association lists, JS arrays become lists
(with `push`/`pop` acting on the tail), JS numbers become `Nat`/`Int`/`Rat`
as appropriate, and a JS `TypeError` (an exception escaping a method) is
modelled by an `Option`-valued function returning `none`.  The pieces of the
modules driven by `Math.random` take the sequence of random choices as an
explicit argument; wall-clock reads (`Date.now()`) take the current time as
an explicit argument.  Persistence of the leaderboard files is I/O outside
the room state and is not part of the room-state transitions.
-/

namespace JerryBot

/-! ## Insertion-ordered association lists (the embedding of JS `Map`) -/

/-- `Map.get(k)`: first binding for `k`, if any. -/
def mget {α : Type} (m : List (String × α)) (k : String) : Option α :=
  (m.find? (fun e => e.1 = k)).map (·.2)

/-- `Map.has(k)`. -/
def mhas {α : Type} (m : List (String × α)) (k : String) : Bool :=
  (mget m k).isSome

/-- `Map.set(k, v)`: updates the existing binding in place (keeping its
position, as JS `Map.set` does) or appends a new binding at the end. -/
def mset {α : Type} (m : List (String × α)) (k : String) (v : α) :
    List (String × α) :=
  match m with
  | [] => [(k, v)]
  | e :: rest => if e.1 = k then (k, v) :: rest else e :: mset rest k v

/-- `Map.delete(k)`: removes the binding for `k`, keeping every other
binding in order. -/
def mdel {α : Type} (m : List (String × α)) (k : String) : List (String × α) :=
  match m with
  | [] => []
  | e :: rest => if e.1 = k then mdel rest k else e :: mdel rest k

/-- `Map.size` (on the association lists we build, keys are never
duplicated, so the length is the size). -/
def msize {α : Type} (m : List (String × α)) : Nat := m.length

/-- `Math.round` on a non-negative JS number, modelled on exact rationals:
round half away from zero, which for the non-negative values that appear in
the leaderboard formulas is `⌊q + 1/2⌋`. -/
def jsRound (q : ℚ) : ℤ := Int.floor (q + 1/2)

/-! ## Shedding-card game (`pesten`): cards and play legality

Embedding of the card-game module: `SUITS`, `RANKS`, the two jokers, and
`canPlayCard` (source lines 76–103). -/

namespace Pesten

inductive Suit where
  | hearts | diamonds | clubs | spades | joker
  deriving DecidableEq, Repr

inductive Rank where
  | r2 | r3 | r4 | r5 | r6 | r7 | r8 | r9 | r10
  | jack | queen | king | ace | jokerRank
  deriving DecidableEq, Repr

structure Card where
  suit : Suit
  rank : Rank
  id : String
  deriving DecidableEq, Repr

/-- `card.suit === "joker" && card.rank === "joker"`. -/
def isJokerCard (c : Card) : Prop :=
  c.suit = Suit.joker ∧ c.rank = Rank.jokerRank

instance (c : Card) : Decidable (isJokerCard c) := by
  unfold isJokerCard
  infer_instance

/-- `canPlayCard(card, topCard, chosenSuit, pendingDraws)`.

The JS guard `if (pendingDraws > 0) { if (top is 2 or joker) { ... } }`
falls through to the normal matching rules when `pendingDraws > 0` but the
top card is neither a 2 nor a joker, which the nested condition below
reproduces. -/
def canPlayCard (card topCard : Card) (chosenSuit : Option Suit)
    (pendingDraws : Nat) : Bool :=
  if pendingDraws > 0 ∧
      (topCard.rank = Rank.r2 ∨
        (topCard.suit = Suit.joker ∧ topCard.rank = Rank.jokerRank)) then
    -- Can stack 2s on 2s
    if topCard.rank = Rank.r2 ∧ card.rank = Rank.r2 then true
    -- Can stack jokers on jokers or on 2s
    else if card.suit = Suit.joker ∧ card.rank = Rank.jokerRank then true
    -- Can stack 2s on jokers
    else if topCard.suit = Suit.joker ∧ card.rank = Rank.r2 then true
    else false
  else
    -- Joker can always be played
    if card.suit = Suit.joker ∧ card.rank = Rank.jokerRank then true
    -- Jack (wild) can always be played
    else if card.rank = Rank.jack then true
    else
      match chosenSuit with
      -- If a suit was chosen (after Jack), must match that suit
      | some s => card.suit = s ∨ card.rank = Rank.jack
      -- Match by suit or rank
      | none => card.suit = topCard.suit ∨ card.rank = topCard.rank

/-- The legality rule exactly as the specification words it: outside a
pending obligation, jokers and Jacks are always legal and any other card is
legal iff it matches the active suit (the chosen suit when a Jack is in
effect, else the suit of the top card) or the rank of the top card; under a pending
obligation, a joker is always legal, a 2 is legal iff the top is itself a 2
or the pile is joker-topped, and everything else is illegal.  This
definition follows the specification text, to be compared against
`canPlayCard`, which follows the source. -/
def specLegalPlay (card topCard : Card) (chosenSuit : Option Suit)
    (pendingDraws : Nat) : Prop :=
  if pendingDraws > 0 then
    isJokerCard card ∨
      (card.rank = Rank.r2 ∧
        (topCard.rank = Rank.r2 ∨ topCard.suit = Suit.joker))
  else
    isJokerCard card ∨ card.rank = Rank.jack ∨
      card.suit = chosenSuit.getD topCard.suit ∨ card.rank = topCard.rank

instance (card topCard : Card) (chosenSuit : Option Suit) (p : Nat) :
    Decidable (specLegalPlay card topCard chosenSuit p) := by
  unfold specLegalPlay isJokerCard
  infer_instance

/-! ### Room state and operations (`PestenRoom`) -/

/-- `SPECIAL_CARDS` effect tags. -/
inductive Effect where
  | draw2 | draw5 | playAgain | skip | wild | reverse
  deriving DecidableEq, Repr

/-- The `SPECIAL_CARDS` table, keyed by rank. -/
def specialEffectOfRank : Rank → Option Effect
  | Rank.r2 => some Effect.draw2
  | Rank.r7 => some Effect.playAgain
  | Rank.r8 => some Effect.skip
  | Rank.jack => some Effect.wild
  | Rank.ace => some Effect.reverse
  | Rank.jokerRank => some Effect.draw5
  | _ => none

/-- `card.suit === "joker" ? "draw5" : SPECIAL_CARDS[card.rank]`. -/
def specialEffectOfCard (c : Card) : Option Effect :=
  if c.suit = Suit.joker then some Effect.draw5 else specialEffectOfRank c.rank

structure GameStats where
  cardsPlayed : Nat
  specialCardsPlayed : Nat
  drawsForced : Nat
  cardsDrawn : Nat
  deriving DecidableEq, Repr

def GameStats.init : GameStats := ⟨0, 0, 0, 0⟩

structure PPlayer where
  id : String
  name : String
  avatar : Option String
  hand : List Card
  isBot : Bool
  connected : Bool
  gameStats : GameStats
  deriving DecidableEq, Repr

inductive PState where
  | waiting | playing | finished
  deriving DecidableEq, Repr

/-- The `PestenRoom` fields (constructor lines 106–129).  The deck and
discard pile are lists whose last element is the last element of the JS arrays,
so `push`/`pop` act on the tail.  Log entries pair the `Date.now()`
timestamp with the message. -/
structure PestenRoom where
  id : String
  name : String
  hostId : String
  maxPlayers : Nat
  players : List PPlayer
  gameState : PState
  deck : List Card
  discardPile : List Card
  currentPlayerIndex : Nat
  direction : Int
  chosenSuit : Option Suit
  pendingDraws : Nat
  winner : Option PPlayer
  gameLog : List (Nat × String)
  botIdCounter : Nat
  deriving DecidableEq, Repr

/-- `getTopCard()`: `discardPile[discardPile.length - 1]`; `none` when the
pile is empty (JS `undefined`). -/
def getTopCard (room : PestenRoom) : Option Card :=
  room.discardPile.getLast?

/-- `addLog(message)`: append, then drop the oldest entry past 50. -/
def addLog (now : Nat) (msg : String) (room : PestenRoom) : PestenRoom :=
  let log := room.gameLog ++ [(now, msg)]
  { room with gameLog := if log.length > 50 then log.drop 1 else log }

/-- One turn-advance step: `(currentIndex + direction + N) mod N`.  The
dividend is non-negative whenever `direction ∈ {1, -1}`, so the Lean `Int`
remainder agrees with the JS `%` here. -/
def stepIdx (n : Nat) (dir : Int) (i : Nat) : Nat :=
  (((i : Int) + dir + n) % n).toNat

/-- A placeholder player, used only for indexing that the JS code performs
without bounds failures (the cursor always stays below the player count). -/
def dummyPlayer : PPlayer :=
  ⟨"", "", none, [], false, false, GameStats.init⟩

/-- The `while (!connected && attempts < N)` loop of `nextTurn`, with the
attempt counter as structural fuel: stop on a connected player, otherwise
take another step, for at most `fuel` extra steps. -/
def skipDisconnected (players : List PPlayer) (dir : Int) :
    Nat → Nat → Nat
  | 0, i => i
  | fuel + 1, i =>
    if (players.getD i dummyPlayer).connected then i
    else skipDisconnected players dir fuel (stepIdx players.length dir i)

/-- `nextTurn()` (source lines 466–475): one step, then skip disconnected
players, bounded by at most `N` further attempts. -/
def nextTurn (room : PestenRoom) : PestenRoom :=
  let n := room.players.length
  let i1 := stepIdx n room.direction room.currentPlayerIndex
  { room with
    currentPlayerIndex := skipDisconnected room.players room.direction n i1 }

/-- In-place update of a list element (the embedding of mutating
`this.players[i]`). -/
def listModify {α : Type} (f : α → α) : Nat → List α → List α
  | _, [] => []
  | 0, a :: as => f a :: as
  | n + 1, a :: as => a :: listModify f n as

def suitName : Suit → String
  | Suit.hearts => "hearts"
  | Suit.diamonds => "diamonds"
  | Suit.clubs => "clubs"
  | Suit.spades => "spades"
  | Suit.joker => "joker"

def rankName : Rank → String
  | Rank.r2 => "2"
  | Rank.r3 => "3"
  | Rank.r4 => "4"
  | Rank.r5 => "5"
  | Rank.r6 => "6"
  | Rank.r7 => "7"
  | Rank.r8 => "8"
  | Rank.r9 => "9"
  | Rank.r10 => "10"
  | Rank.jack => "J"
  | Rank.queen => "Q"
  | Rank.king => "K"
  | Rank.ace => "A"
  | Rank.jokerRank => "joker"

/-- The result object of `playCard`. -/
structure PlayResult where
  success : Bool
  error : Option String := none
  needsSuit : Bool := false
  effect : Option Effect := none
  gameOver : Bool := false
  winner : Option PPlayer := none
  deriving DecidableEq, Repr

/-- A Jack nomination is invalid when missing or not one of the four
`SUITS` (note `"joker"` is not in `SUITS`). -/
def wildSuitInvalid : Option Suit → Prop
  | none => True
  | some s => s = Suit.joker

instance (o : Option Suit) : Decidable (wildSuitInvalid o) := by
  cases o <;> (unfold wildSuitInvalid; infer_instance)

/-- `playCard(playerId, cardId, chosenSuit)` (source lines 317–418).
Returns `none` where the JS method would fail with a `TypeError`
(the turn cursor outside the player array, or an empty discard pile —
neither is reachable while a game is in progress).  The leaderboard
write on the win path is file I/O, outside the room state. -/
def playCard (now : Nat) (room : PestenRoom) (playerId cardId : String)
    (chosenSuit : Option Suit) : Option (PlayResult × PestenRoom) :=
  if room.gameState ≠ PState.playing then
    some ({ success := false, error := some "Game not in progress" }, room)
  else match room.players.get? room.currentPlayerIndex with
  | none => none
  | some player =>
    if player.id ≠ playerId then
      some ({ success := false, error := some "Not your turn" }, room)
    else match player.hand.findIdx? (fun c => c.id = cardId) with
    | none => some ({ success := false, error := some "Card not in hand" }, room)
    | some cardIndex =>
      let card := player.hand.getD cardIndex ⟨Suit.hearts, Rank.r3, ""⟩
      match getTopCard room with
      | none => none
      | some topCard =>
        if ¬ canPlayCard card topCard room.chosenSuit room.pendingDraws then
          some ({ success := false, error := some "Cannot play this card" }, room)
        else
          -- Remove card from hand and add to discard pile; clear chosen suit;
          -- count the play (and the special play) in the game stats.
          let specialEffect := specialEffectOfCard card
          let stats1 :=
            { player.gameStats with
              cardsPlayed := player.gameStats.cardsPlayed + 1 }
          let stats2 :=
            if specialEffect.isSome then
              { stats1 with specialCardsPlayed := stats1.specialCardsPlayed + 1 }
            else stats1
          let player1 :=
            { player with
              hand := player.hand.eraseIdx cardIndex,
              gameStats := stats2 }
          let room1 :=
            { room with
              players := listModify (fun _ => player1) room.currentPlayerIndex
                room.players,
              discardPile := room.discardPile ++ [card],
              chosenSuit := none }
          if specialEffect = some Effect.wild ∧ wildSuitInvalid chosenSuit then
            -- Put card back if no suit chosen (undo stats tracking).  Note the
            -- card is appended at the end of the hand, and `chosenSuit` stays
            -- cleared: `room1.chosenSuit` is `none` here.
            let player2 :=
              { player1 with
                hand := player1.hand ++ [card],
                gameStats :=
                  { player1.gameStats with
                    cardsPlayed := player1.gameStats.cardsPlayed - 1,
                    specialCardsPlayed :=
                      player1.gameStats.specialCardsPlayed - 1 } }
            some ({ success := false, error := some "Must choose a suit",
                    needsSuit := true },
              { room1 with
                players := listModify (fun _ => player2) room.currentPlayerIndex
                  room1.players,
                discardPile := room1.discardPile.dropLast })
          else
            -- Handle special cards.
            let step :
                Option Effect × PPlayer × PestenRoom :=
              match specialEffect with
              | some Effect.draw2 =>
                let p2 :=
                  { player1 with
                    gameStats :=
                      { player1.gameStats with
                        drawsForced := player1.gameStats.drawsForced + 2 } }
                let r2 :=
                  { room1 with
                    players := listModify (fun _ => p2) room.currentPlayerIndex
                      room1.players,
                    pendingDraws := room1.pendingDraws + 2 }
                (some Effect.draw2, p2,
                  addLog now (player.name ++ " played 2 of " ++
                    suitName card.suit ++ ". Next player must draw " ++
                    toString r2.pendingDraws ++ " or stack!") r2)
              | some Effect.draw5 =>
                let p2 :=
                  { player1 with
                    gameStats :=
                      { player1.gameStats with
                        drawsForced := player1.gameStats.drawsForced + 5 } }
                let r2 :=
                  { room1 with
                    players := listModify (fun _ => p2) room.currentPlayerIndex
                      room1.players,
                    pendingDraws := room1.pendingDraws + 5 }
                (some Effect.draw5, p2,
                  addLog now (player.name ++
                    " played Joker! Next player must draw " ++
                    toString r2.pendingDraws ++ " or stack!") r2)
              | some Effect.playAgain =>
                (some Effect.playAgain, player1,
                  addLog now (player.name ++ " played 7 of " ++
                    suitName card.suit ++ " and plays again!") room1)
              | some Effect.skip =>
                (some Effect.skip, player1,
                  addLog now (player.name ++ " played 8 of " ++
                    suitName card.suit ++ ". Next player is skipped!") room1)
              | some Effect.wild =>
                let s := chosenSuit.getD Suit.hearts
                (some Effect.wild, player1,
                  addLog now (player.name ++ " played Jack and chose " ++
                    suitName s ++ "!") { room1 with chosenSuit := chosenSuit })
              | some Effect.reverse =>
                let r2 := { room1 with direction := room1.direction * (-1) }
                let directionName :=
                  if r2.direction = 1 then "clockwise" else "counter-clockwise"
                (some Effect.reverse, player1,
                  addLog now (player.name ++ " played Ace of " ++
                    suitName card.suit ++ ". Direction reversed to " ++
                    directionName ++ "!") r2)
              | none =>
                (none, player1,
                  addLog now (player.name ++ " played " ++ rankName card.rank ++
                    " of " ++ suitName card.suit ++ ".") room1)
            let effect := step.1
            let player2 := step.2.1
            let room2 := step.2.2
            -- Check for win
            if player1.hand.length = 0 then
              let room3 :=
                addLog now (player.name ++ " wins!")
                  { room2 with
                    winner := some player2,
                    gameState := PState.finished }
              some ({ success := true, effect := effect, gameOver := true,
                      winner := some player2 }, room3)
            else
              -- Next turn (unless play again); skip advances one extra.
              let room3 :=
                if specialEffect ≠ some Effect.playAgain then
                  if specialEffect = some Effect.skip then
                    nextTurn (nextTurn room2)
                  else nextTurn room2
                else room2
              some ({ success := true, effect := effect }, room3)

/-- One entry of the `players` array in the serialized state: the `hand`
field is present (`some`) only for the requesting player, `undefined`
(`none`) for everyone else. -/
structure PPlayerState where
  id : String
  name : String
  avatar : Option String
  cardCount : Nat
  isBot : Bool
  connected : Bool
  isCurrentTurn : Bool
  hand : Option (List Card)
  deriving DecidableEq, Repr

/-- The serialized room state returned by `getState(forPlayerId)`. -/
structure PestenState where
  id : String
  name : String
  hostId : String
  maxPlayers : Nat
  gameState : PState
  currentPlayerIndex : Nat
  direction : Int
  chosenSuit : Option Suit
  pendingDraws : Nat
  topCard : Option Card
  deckCount : Nat
  gameLog : List (Nat × String)
  winner : Option (String × String)
  players : List PPlayerState
  deriving DecidableEq, Repr

/-- The `this.players.map((p, index) => ...)` body of `getState`, with the
running index made explicit. -/
def serializePlayers (forPlayerId : Option String) (cur : Nat) :
    Nat → List PPlayer → List PPlayerState
  | _, [] => []
  | i, p :: ps =>
    { id := p.id, name := p.name, avatar := p.avatar,
      cardCount := p.hand.length, isBot := p.isBot, connected := p.connected,
      isCurrentTurn := i = cur,
      -- Only send hand to the player themselves
      hand := if some p.id = forPlayerId then some p.hand else none } ::
      serializePlayers forPlayerId cur (i + 1) ps

/-- `getState(forPlayerId)` (source lines 589–618). -/
def getState (room : PestenRoom) (forPlayerId : Option String) :
    PestenState :=
  { id := room.id, name := room.name, hostId := room.hostId,
    maxPlayers := room.maxPlayers, gameState := room.gameState,
    currentPlayerIndex := room.currentPlayerIndex,
    direction := room.direction, chosenSuit := room.chosenSuit,
    pendingDraws := room.pendingDraws, topCard := getTopCard room,
    deckCount := room.deck.length,
    gameLog := room.gameLog.drop (room.gameLog.length - 10),
    winner := room.winner.map (fun w => (w.id, w.name)),
    players := serializePlayers forPlayerId room.currentPlayerIndex 0
      room.players }

/-- The hands a client can read off a serialized state: the `hand` fields
that are present. -/
def visibleHands (st : PestenState) : List (List Card) :=
  st.players.filterMap (fun e => e.hand)

/-- All cards visible to the receiving client, re-derived from the
serialized state. -/
def cardsVisibleTo (st : PestenState) : List Card :=
  (visibleHands st).flatten

/-! ### Leaderboard entry computation (`getLeaderboard`, source lines
650–699).  JS float literals are modelled by the exact rationals they
denote in the source text. -/

structure PestenLBData where
  gamesPlayed : Nat
  gamesWon : Nat
  cardsPlayed : Nat
  specialCardsPlayed : Nat
  drawsForced : Nat
  cardsDrawn : Nat
  deriving DecidableEq, Repr

/-- The full weighted skill formula used at or above the games-played
gate: win rate weighted 0.5, aggression (draws forced) capped at 25,
special-card rate weighted 0.2, and an efficiency term. -/
def pestenWeightedRating (winRate : ℤ) (avgDrawsForced : ℚ)
    (specialCardRate : ℤ) (cardsDrawn gamesPlayed : Nat) : ℤ :=
  jsRound ((winRate : ℚ) * (1/2) + min (avgDrawsForced * 5) 25 +
    (specialCardRate : ℚ) * (1/5) +
    max 0 (20 - (cardsDrawn : ℚ) / (max gamesPlayed 1 : Nat)))

structure PestenLBEntry where
  winRate : ℤ
  avgCardsPlayed : ℤ
  specialCardRate : ℤ
  avgDrawsForced : ℚ
  skillRating : ℤ
  deriving DecidableEq, Repr

/-- The per-player map body of the card game `getLeaderboard`. -/
def pestenEntry (d : PestenLBData) : PestenLBEntry :=
  let winRate : ℤ :=
    if d.gamesPlayed > 0 then
      jsRound ((d.gamesWon : ℚ) / (d.gamesPlayed : Nat) * 100)
    else 0
  let avgCardsPlayed : ℤ :=
    if d.gamesPlayed > 0 then
      jsRound ((d.cardsPlayed : ℚ) / (d.gamesPlayed : Nat))
    else 0
  let specialCardRate : ℤ :=
    if d.cardsPlayed > 0 then
      jsRound ((d.specialCardsPlayed : ℚ) / (d.cardsPlayed : Nat) * 100)
    else 0
  let avgDrawsForced : ℚ :=
    if d.gamesPlayed > 0 then
      (jsRound ((d.drawsForced : ℚ) / (d.gamesPlayed : Nat) * 10) : ℚ) / 10
    else 0
  let skillRating : ℤ :=
    if d.gamesPlayed ≥ 3 then
      pestenWeightedRating winRate avgDrawsForced specialCardRate
        d.cardsDrawn d.gamesPlayed
    else winRate
  { winRate := winRate, avgCardsPlayed := avgCardsPlayed,
    specialCardRate := specialCardRate, avgDrawsForced := avgDrawsForced,
    skillRating := skillRating }

end Pesten

/-! ## Draw-and-guess game (`pictionaryGame.js`) -/

namespace Pict

/-- `HINT_INTERVALS = [20, 40, 60]`. -/
def HINT_INTERVALS : List Nat := [20, 40, 60]

def ROUND_TIME : Nat := 80

def MIN_PLAYERS : Nat := 1

def MAX_PLAYERS : Nat := 8

def ROUNDS_PER_GAME : Nat := 3

/-- The indices of the non-space characters of the word (the `indices`
array of `generateHint`), with the running position made explicit. -/
def nonSpaceIndicesFrom : Nat → List Char → List Nat
  | _, [] => []
  | i, c :: cs =>
    if c = ' ' then nonSpaceIndicesFrom (i + 1) cs
    else i :: nonSpaceIndicesFrom (i + 1) cs

def nonSpaceIndices (letters : List Char) : List Nat :=
  nonSpaceIndicesFrom 0 letters

/-- The `while (revealIndices.size < target)` loop of `generateHint`.  Each
entry of `picks` is one `Math.floor(Math.random() * indices.length)` draw
(hence taken modulo `indices.length`); the JS loop keeps drawing until the
set reaches its target size, so a terminating execution corresponds to a
pick list long enough to reach it. -/
def revealLoop (indices : List Nat) (target : Nat) :
    List Nat → Finset Nat → Finset Nat
  | [], acc => acc
  | p :: ps, acc =>
    if acc.card < target then
      revealLoop indices target ps
        (insert (indices.getD (p % indices.length) 0) acc)
    else acc

/-- The set of positions a call to `generateHint` reveals. -/
def revealedSet (letters : List Char) (revealCount : Nat)
    (picks : List Nat) : Finset Nat :=
  let indices := nonSpaceIndices letters
  revealLoop indices (min revealCount indices.length) picks ∅

/-- The final `letters.map` of `generateHint`: keep spaces, show revealed
positions, mask the rest with underscores. -/
def maskFrom (rset : Finset Nat) : Nat → List Char → List Char
  | _, [] => []
  | i, c :: cs =>
    (if c = ' ' then ' ' else if i ∈ rset then c else '_') ::
      maskFrom rset (i + 1) cs

/-- `generateHint(word, revealCount)` (source lines 93–113), with the
random draws passed explicitly. -/
def generateHint (letters : List Char) (revealCount : Nat)
    (picks : List Nat) : List Char :=
  maskFrom (revealedSet letters revealCount picks) 0 letters

/-- The reveal count armed for hint number `hintIndex` (0-based) by
`scheduleHints` (source lines 472–490):
`min(ceil(wordLength * (index + 1) * 0.2), wordLength - 1)` where
`wordLength` counts the non-space characters. -/
def scheduleRevealCount (wordLength : Nat) (hintIndex : Nat) : Nat :=
  min (Nat.ceil ((wordLength * (hintIndex + 1) : ℚ) / 5)) (wordLength - 1)

structure CheckResult where
  correct : Bool
  close : Bool
  deriving DecidableEq, Repr

/-- `checkGuess(guess, word)` (source lines 116–137).  `none` models the
`TypeError` the JS function raises when `word` is `null`
(`word.toLowerCase()` on a null value). -/
def checkGuess (guess : String) (word : Option String) :
    Option CheckResult :=
  match word with
  | none => none
  | some w =>
    let g := guess.toLower.trim
    let wn := w.toLower.trim
    if g = wn then some { correct := true, close := false }
    else
      let gl := g.toList
      let wl := wn.toList
      if |(gl.length : ℤ) - (wl.length : ℤ)| ≤ 2 then
        let maxLen := max gl.length wl.length
        let differences :=
          ((List.range maxLen).filter (fun i => gl.get? i ≠ wl.get? i)).length
        if differences ≤ 2 ∧ gl.length ≥ 3 then
          some { correct := false, close := true }
        else some { correct := false, close := false }
      else some { correct := false, close := false }

/-- `calculateGuesserScore(timeElapsed, isFirst)`. -/
def calculateGuesserScore (timeElapsed : ℚ) (isFirst : Bool) : ℚ :=
  let baseScore := max 100 (500 - timeElapsed * 5)
  if isFirst then baseScore + 50 else baseScore

structure PicPlayer where
  id : String
  displayName : String
  avatar : Option String
  score : ℚ
  hasGuessedThisRound : Bool
  isConnected : Bool
  isSpectator : Bool
  /-- The `connected` property that the reconnection paths write (a
  property distinct from the `isConnected` set by the constructor): absent until
  first written. -/
  connected : Option Bool
  deriving DecidableEq, Repr

/-- `new Player(id, displayName, avatar)`. -/
def PicPlayer.make (id displayName : String) (avatar : Option String) :
    PicPlayer :=
  { id := id, displayName := displayName, avatar := avatar, score := 0,
    hasGuessedThisRound := false, isConnected := true, isSpectator := false,
    connected := none }

inductive PicState where
  | waiting | choosing | playing | betweenRounds | ended
  deriving DecidableEq, Repr

structure DrawStats where
  roundsDrawn : Nat
  successfulDrawings : Nat
  deriving DecidableEq, Repr

structure CorrectGuess where
  playerId : String
  displayName : String
  score : ℚ
  timeElapsed : ℚ
  deriving DecidableEq, Repr

/-- The `Room` fields of the draw-and-guess game (constructor lines
172–198).  Timers are modelled by armed-flags; stroke payloads are plain
strings. -/
structure PicRoom where
  id : String
  name : String
  hostId : String
  players : List (String × PicPlayer)
  spectators : List (String × PicPlayer)
  state : PicState
  currentRound : Nat
  totalRounds : Nat
  currentDrawerIndex : Nat
  currentWord : Option String
  currentHint : Option String
  hintsRevealed : Nat
  roundStartTime : Option Nat
  roundTimer : Bool
  hintTimer : Bool
  wordChoiceTimer : Bool
  drawHistory : List String
  redoHistory : List String
  correctGuessers : List CorrectGuess
  difficulty : String
  language : String
  maxPlayers : Nat
  customWords : List String
  createdAt : Nat
  drawingStats : List (String × DrawStats)
  currentRoundHadCorrectGuess : Bool
  wordChoices : Option (List String)
  deriving DecidableEq, Repr

/-- `getCurrentDrawer()` (source lines 326–330). -/
def getCurrentDrawer (room : PicRoom) : Option PicPlayer :=
  let arr := room.players.map (fun e => e.2)
  if arr.length = 0 then none
  else arr.get? (room.currentDrawerIndex % arr.length)

structure AddResult where
  success : Bool
  error : Option String := none
  asSpectator : Bool := false
  reconnected : Bool := false
  deriving DecidableEq, Repr

/-- `addSpectator(player)` (source lines 256–262): marks the player as a
spectator and stores it, with no membership guard. -/
def addSpectator (room : PicRoom) (p : PicPlayer) : AddResult × PicRoom :=
  let p1 := { p with isSpectator := true }
  ({ success := true, asSpectator := true },
    { room with spectators := mset room.spectators p1.id p1 })

/-- `addPlayer(player)` (source lines 219–249): reconnection of an
existing player or spectator, then the capacity check, then the
active-game spectator branch, then the normal join. -/
def addPlayer (room : PicRoom) (p : PicPlayer) : AddResult × PicRoom :=
  match mget room.players p.id with
  | some existing =>
    let e1 :=
      { existing with
        connected := some true,
        displayName := p.displayName,
        avatar := p.avatar }
    ({ success := true, reconnected := true },
      { room with players := mset room.players p.id e1 })
  | none =>
    match mget room.spectators p.id with
    | some sp =>
      let s1 :=
        { sp with
          connected := some true,
          displayName := p.displayName,
          avatar := p.avatar }
      ({ success := true, asSpectator := true, reconnected := true },
        { room with spectators := mset room.spectators p.id s1 })
    | none =>
      if msize room.players ≥ room.maxPlayers then
        ({ success := false, error := some "Room is full" }, room)
      else if room.state = PicState.playing ∨
          room.state = PicState.betweenRounds then
        -- Game in progress - add as spectator instead
        addSpectator room p
      else
        ({ success := true },
          { room with players := mset room.players p.id p })

/-- `removeSpectator(playerId)` (source lines 264–271). -/
def removeSpectator (room : PicRoom) (playerId : String) : PicRoom :=
  match mget room.spectators playerId with
  | none => room
  | some _ => { room with spectators := mdel room.spectators playerId }

/-- `promoteSpectatorToPlayer(playerId)` (source lines 273–285). -/
def promoteSpectatorToPlayer (room : PicRoom) (playerId : String) :
    Bool × PicRoom :=
  match mget room.spectators playerId with
  | none => (false, room)
  | some sp =>
    if msize room.players ≥ room.maxPlayers then (false, room)
    else if room.state ≠ PicState.waiting then (false, room)
    else
      let sp1 := { sp with isSpectator := false, score := 0 }
      (true,
        { room with
          spectators := mdel room.spectators playerId,
          players := mset room.players playerId sp1 })

/-- The synchronous part of `endRound` (source lines 569–615): timers
cancelled, word cleared, drawer advanced with wraparound and round
increment; the game-over path only schedules `endGame` (3s later), the
normal path enters `between_rounds` (the 5s continuation is a separate
timer callback). -/
def endRoundSync (_drawerLeft : Bool) (room : PicRoom) : PicRoom :=
  let r1 :=
    { room with
      roundTimer := false,
      wordChoiceTimer := false,
      currentWord := none }
  let idx := r1.currentDrawerIndex + 1
  if idx ≥ msize r1.players then
    let r2 :=
      { r1 with
        currentDrawerIndex := 0,
        currentRound := r1.currentRound + 1 }
    if r2.currentRound > r2.totalRounds then r2
    else { r2 with state := PicState.betweenRounds }
  else { r1 with currentDrawerIndex := idx, state := PicState.betweenRounds }

/-- The synchronous part of `endGame` (source lines 617–652): the ended
state and timer cancellation; leaderboard persistence is file I/O and the
10-second room reset is the separate timer callback `resetAfterEnd`. -/
def endGameSync (room : PicRoom) : PicRoom :=
  { room with state := PicState.ended, roundTimer := false }

/-- The spectator-promotion loop of the reset callback: promote in
insertion order until the room is at player capacity. -/
def promoteLoop : List (String × PicPlayer) → PicRoom → PicRoom
  | [], room => room
  | (sid, sp) :: rest, room =>
    if msize room.players ≥ room.maxPlayers then room
    else
      promoteLoop rest
        { room with
          spectators := mdel room.spectators sid,
          players := mset room.players sid
            { sp with
              isSpectator := false,
              score := 0,
              hasGuessedThisRound := false } }

/-- The `setTimeout` body that resets the room to `waiting` 10 seconds
after `endGame` (source lines 655–680). -/
def resetAfterEnd (room : PicRoom) : PicRoom :=
  let r1 :=
    { room with
      state := PicState.waiting,
      currentRound := 0,
      currentDrawerIndex := 0,
      drawingStats := [],
      players := room.players.map (fun e =>
        (e.1, { e.2 with score := 0, hasGuessedThisRound := false })) }
  promoteLoop r1.spectators r1

/-- `removePlayer(playerId)` (source lines 291–320).  Note the
drawer-left check runs after the deletion, so it can never match the
removed id; with `MIN_PLAYERS = 1` the game ends only when the last
player leaves. -/
def removePlayer (room : PicRoom) (playerId : String) : PicRoom :=
  if mhas room.spectators playerId then removeSpectator room playerId
  else match mget room.players playerId with
  | none => room
  | some _ =>
    let r1 := { room with players := mdel room.players playerId }
    let r2 :=
      if playerId = r1.hostId ∧ msize r1.players > 0 then
        { r1 with
          hostId := ((r1.players.head?).map (fun e => e.1)).getD r1.hostId }
      else r1
    let r3 :=
      if r2.state = PicState.playing ∧
          (getCurrentDrawer r2).map (fun p => p.id) = some playerId then
        endRoundSync true r2
      else r2
    if r3.state = PicState.playing ∧ msize r3.players < MIN_PLAYERS then
      endGameSync r3
    else r3

structure GuessResult where
  success : Bool
  error : Option String := none
  correct : Bool := false
  close : Bool := false
  score : Option ℚ := none
  deriving DecidableEq, Repr

/-- `handleGuess(playerId, guess)` (source lines 492–567), with the
`Date.now()` read passed as `now`.  Returns `none` where the JS method
would raise (via `checkGuess` on a `null` current word — the method has no
phase guard). -/
def handleGuess (now : Nat) (room : PicRoom) (playerId guess : String) :
    Option (GuessResult × PicRoom) :=
  match mget room.players playerId with
  | none =>
    if mhas room.spectators playerId then
      some ({ success := false, error := some "Spectators cannot guess" },
        room)
    else some ({ success := false }, room)
  | some player =>
    if (getCurrentDrawer room).map (fun p => p.id) = some playerId then
      some ({ success := false, error := some "Drawer cannot guess" }, room)
    else if player.hasGuessedThisRound then
      some ({ success := false, error := some "Already guessed correctly" },
        room)
    else match checkGuess guess room.currentWord with
    | none => none
    | some res =>
      if res.correct then
        let timeElapsed : ℚ :=
          ((now : ℚ) - ((room.roundStartTime.getD 0 : Nat) : ℚ)) / 1000
        let isFirst := room.correctGuessers = []
        let score := calculateGuesserScore timeElapsed isFirst
        let player1 :=
          { player with
            hasGuessedThisRound := true,
            score := player.score + score }
        let room1 :=
          { room with
            players := mset room.players playerId player1,
            correctGuessers := room.correctGuessers ++
              [{ playerId := playerId, displayName := player.displayName,
                 score := score, timeElapsed := timeElapsed }] }
        let dId := (getCurrentDrawer room).map (fun p => p.id)
        let room2 :=
          if isFirst then
            let r := { room1 with currentRoundHadCorrectGuess := true }
            match dId with
            | some d =>
              if mhas r.drawingStats d then
                { r with drawingStats :=
                  (match mget r.drawingStats d with
                   | some st =>
                     mset r.drawingStats d
                       { st with successfulDrawings :=
                         st.successfulDrawings + 1 }
                   | none => r.drawingStats) }
              else r
            | none => r
          else room1
        let room3 :=
          match dId with
          | some d =>
            (match mget room2.players d with
             | some dp =>
               { room2 with
                 players := mset room2.players d
                   { dp with score := dp.score + 25 } }
             | none => room2)
          | none => room2
        let allGuessed := room3.players.all (fun e =>
          if some e.2.id = dId then true else e.2.hasGuessedThisRound)
        let room4 := if allGuessed then endRoundSync false room3 else room3
        some ({ success := true, correct := true, score := some score },
          room4)
      else if res.close then
        some ({ success := true, correct := false, close := true }, room)
      else
        some ({ success := true, correct := false, close := false }, room)

/-! ### Leaderboard entry computation (source lines 815–850). -/

structure PictLBData where
  gamesPlayed : Nat
  gamesWon : Nat
  totalPoints : ℚ
  roundsDrawn : Nat
  successfulDrawings : Nat
  deriving DecidableEq, Repr

/-- The full weighted skill formula used at or above the games-played
gate: `avgPoints * 0.7 + winRate * 2 + drawSuccessRate * 0.5`. -/
def pictWeightedRating (avgPoints winRate drawSuccessRate : ℤ) : ℤ :=
  jsRound ((avgPoints : ℚ) * (7/10) + (winRate : ℚ) * 2 +
    (drawSuccessRate : ℚ) * (1/2))

structure PictLBEntry where
  winRate : ℤ
  avgPoints : ℤ
  drawSuccessRate : ℤ
  skillRating : ℤ
  deriving DecidableEq, Repr

/-- The per-player map body of the draw-and-guess `getLeaderboard`. -/
def pictEntry (d : PictLBData) : PictLBEntry :=
  let winRate : ℤ :=
    if d.gamesPlayed > 0 then
      jsRound ((d.gamesWon : ℚ) / (d.gamesPlayed : Nat) * 100)
    else 0
  let avgPoints : ℤ :=
    if d.gamesPlayed > 0 then jsRound (d.totalPoints / (d.gamesPlayed : Nat))
    else 0
  let drawSuccessRate : ℤ :=
    if d.roundsDrawn > 0 then
      jsRound ((d.successfulDrawings : ℚ) / (d.roundsDrawn : Nat) * 100)
    else 0
  let skillRating : ℤ :=
    if d.gamesPlayed ≥ 3 then
      pictWeightedRating avgPoints winRate drawSuccessRate
    else avgPoints
  { winRate := winRate, avgPoints := avgPoints,
    drawSuccessRate := drawSuccessRate, skillRating := skillRating }

end Pict

/-! ## Music-timeline game (`hitsterGame.js`) -/

namespace Hitster

/-- A song entry: the fields the engine reads (`year` for placement,
`youtubeId` for the anti-repeat set). -/
structure Song where
  youtubeId : String
  year : Int
  deriving DecidableEq, Repr

structure HPlayer where
  id : String
  name : String
  timeline : List Song
  score : Nat
  connected : Bool
  deriving DecidableEq, Repr

structure HSpectator where
  id : String
  name : String
  connected : Bool
  deriving DecidableEq, Repr

inductive HState where
  | waiting | playing | ended
  deriving DecidableEq, Repr

inductive TurnPhase where
  | listening | placing | stealing
  deriving DecidableEq, Repr

/-- The `HitsterRoom` fields the embedded operations touch (constructor
lines 56–81). -/
structure HitsterRoom where
  id : String
  name : String
  hostId : String
  hostName : String
  players : List (String × HPlayer)
  spectators : List (String × HSpectator)
  state : HState
  currentPlayerIndex : Nat
  currentSong : Option Song
  usedSongs : List String
  turnPhase : TurnPhase
  stealQueue : List String
  currentStealerIndex : Nat
  cardsToWin : Nat
  maxPlayersSetting : Nat
  playerOrder : List String
  deriving DecidableEq, Repr

structure HAddResult where
  success : Bool
  error : Option String := none
  isSpectator : Bool := false
  reconnected : Bool := false
  deriving DecidableEq, Repr

/-- `addSpectator(userId, userName)` (source lines 124–136): guarded
against ids that are already players. -/
def addSpectator (room : HitsterRoom) (userId userName : String) :
    HAddResult × HitsterRoom :=
  if mhas room.players userId then
    ({ success := false, error := some "Already a player" }, room)
  else
    ({ success := true, isSpectator := true },
      { room with
        spectators := mset room.spectators userId
          { id := userId, name := userName, connected := true } })

/-- `addPlayer(userId, userName)` (source lines 83–117): reconnection
checks, then the active-game spectator branch, then the capacity check,
then the normal join — note the state check precedes the capacity check,
unlike the draw-and-guess room. -/
def addPlayer (room : HitsterRoom) (userId userName : String) :
    HAddResult × HitsterRoom :=
  match mget room.players userId with
  | some player =>
    ({ success := true, isSpectator := false, reconnected := true },
      { room with
        players := mset room.players userId
          { player with connected := true, name := userName } })
  | none =>
    match mget room.spectators userId with
    | some sp =>
      ({ success := true, isSpectator := true, reconnected := true },
        { room with
          spectators := mset room.spectators userId
            { sp with connected := true, name := userName } })
    | none =>
      if room.state = HState.playing then addSpectator room userId userName
      else if msize room.players ≥ room.maxPlayersSetting then
        ({ success := false, error := some "Room is full" }, room)
      else
        ({ success := true, isSpectator := false },
          { room with
            players := mset room.players userId
              { id := userId, name := userName, timeline := [], score := 0,
                connected := true } })

/-- `removePlayer(userId)` (source lines 138–158): deletes the id from
both maps, prunes the turn order, clamps the cursor, and reassigns the
host; returns whether the room became empty. -/
def removePlayer (room : HitsterRoom) (userId : String) :
    Bool × HitsterRoom :=
  let wasPlayer := mhas room.players userId
  let r1 :=
    { room with
      players := mdel room.players userId,
      spectators := mdel room.spectators userId,
      playerOrder := room.playerOrder.filter (fun i => i ≠ userId) }
  let r2 :=
    if wasPlayer ∧ r1.state = HState.playing ∧ r1.playerOrder.length > 0 then
      if r1.currentPlayerIndex ≥ r1.playerOrder.length then
        { r1 with currentPlayerIndex := 0 }
      else r1
    else r1
  let r3 :=
    if userId = r2.hostId ∧ msize r2.players > 0 then
      match r2.players.head? with
      | some (_, firstPlayer) =>
        { r2 with hostId := firstPlayer.id, hostName := firstPlayer.name }
      | none => r2
    else r2
  (msize r3.players = 0 ∧ msize r3.spectators = 0, r3)

structure PlacementResult where
  valid : Bool
  error : Option String := none
  correct : Bool := false
  song : Option Song := none
  deriving DecidableEq, Repr

/-- `checkPlacement(userId, position)` (source lines 214–238).  Returns
`none` where the JS method would raise a `TypeError`
(`timeline[position - 1]` undefined for a position beyond the timeline —
positions up to the timeline length are safe). -/
def checkPlacement (room : HitsterRoom) (userId : String) (position : Nat) :
    Option PlacementResult :=
  match mget room.players userId, room.currentSong with
  | none, _ => some { valid := false, error := some "Invalid state" }
  | some _, none => some { valid := false, error := some "Invalid state" }
  | some player, some song =>
    let timeline := player.timeline
    if position > 0 ∧ (timeline.get? (position - 1)).isNone then none
    else
      let bad1 := position > 0 ∧
        (timeline.getD (position - 1) ⟨"", 0⟩).year > song.year
      let bad2 := position < timeline.length ∧
        (timeline.getD position ⟨"", 0⟩).year < song.year
      some { valid := true, correct := ¬ (bad1 ∨ bad2), song := some song }

end Hitster

/-! ## Operation alphabets for the membership invariants -/

/-- The public membership-changing operations of a draw-and-guess room:
join, spectate, promotion, leave, and the game-end reset. -/
inductive PicOp where
  | addP (p : Pict.PicPlayer)
  | addS (p : Pict.PicPlayer)
  | promote (playerId : String)
  | removeP (playerId : String)
  | reset
  deriving Repr

/-- The state transition of one draw-and-guess operation. -/
def PicOp.apply : PicOp → Pict.PicRoom → Pict.PicRoom
  | PicOp.addP p, r => (Pict.addPlayer r p).2
  | PicOp.addS p, r => (Pict.addSpectator r p).2
  | PicOp.promote i, r => (Pict.promoteSpectatorToPlayer r i).2
  | PicOp.removeP i, r => Pict.removePlayer r i
  | PicOp.reset, r => Pict.resetAfterEnd r

/-- The public membership-changing operations of a music-timeline room. -/
inductive HitOp where
  | addP (userId userName : String)
  | addS (userId userName : String)
  | removeP (userId : String)
  deriving Repr

/-- The state transition of one music-timeline operation. -/
def HitOp.apply : HitOp → Hitster.HitsterRoom → Hitster.HitsterRoom
  | HitOp.addP uid uname, r => (Hitster.addPlayer r uid uname).2
  | HitOp.addS uid uname, r => (Hitster.addSpectator r uid uname).2
  | HitOp.removeP uid, r => (Hitster.removePlayer r uid).2

/-- A player id lives in at most one of the two membership maps. -/
def picDisjoint (r : Pict.PicRoom) : Prop :=
  ∀ k : String, ¬ (mhas r.players k = true ∧ mhas r.spectators k = true)

/-- A player id lives in at most one of the two membership maps. -/
def hitDisjoint (r : Hitster.HitsterRoom) : Prop :=
  ∀ k : String, ¬ (mhas r.players k = true ∧ mhas r.spectators k = true)

/-- The one guard under which the draw-and-guess `addSpectator` is ever
invoked in the repository (its only caller, `addPlayer`, reaches it only
for ids that are not current players). -/
def picOpGuard : PicOp → Pict.PicRoom → Prop
  | PicOp.addS p, r => mhas r.players p.id = false
  | _, _ => True

/-! ## Concrete fixtures -/

section Fixtures

open Pesten

def cardJS : Card := ⟨Suit.spades, Rank.jack, "J_spades"⟩

def cardJH : Card := ⟨Suit.hearts, Rank.jack, "J_hearts"⟩

def card5D : Card := ⟨Suit.diamonds, Rank.r5, "5_diamonds"⟩

def card3C : Card := ⟨Suit.clubs, Rank.r3, "3_clubs"⟩

def card3H : Card := ⟨Suit.hearts, Rank.r3, "3_hearts"⟩

def card8H : Card := ⟨Suit.hearts, Rank.r8, "8_hearts"⟩

def mkPlayer (id name : String) (hand : List Card) : PPlayer :=
  { id := id, name := name, avatar := none, hand := hand, isBot := false,
    connected := true, gameStats := GameStats.init }

/-- A mid-game room in which a previous Jack is still binding
(`chosenSuit = hearts`, a Jack on top of the pile) and the current player
holds another Jack. -/
def jackRollbackRoom : PestenRoom :=
  { id := "pesten_1", name := "Table", hostId := "p0", maxPlayers := 4,
    players := [mkPlayer "p0" "Alice" [cardJS, card5D],
                mkPlayer "p1" "Bob" [card3C]],
    gameState := PState.playing, deck := [], discardPile := [cardJH],
    currentPlayerIndex := 0, direction := 1,
    chosenSuit := some Suit.hearts, pendingDraws := 0, winner := none,
    gameLog := [], botIdCounter := 0 }

/-- A four-player room, direction reversed (−1), everyone connected, the
player at index 0 about to play an 8 (skip). -/
def skipRoom : PestenRoom :=
  { id := "pesten_2", name := "Table", hostId := "q0", maxPlayers := 4,
    players := [mkPlayer "q0" "P0" [card8H, card5D],
                mkPlayer "q1" "P1" [card3C],
                mkPlayer "q2" "P2" [cardJS],
                mkPlayer "q3" "P3" [card3H]],
    gameState := PState.playing, deck := [], discardPile := [card3H],
    currentPlayerIndex := 0, direction := -1,
    chosenSuit := none, pendingDraws := 0, winner := none,
    gameLog := [], botIdCounter := 0 }

end Fixtures

section PictFixtures

open Pict

/-- A two-player draw-and-guess room in the `waiting` state (no word
chosen, no game running). -/
def picBaseRoom : PicRoom :=
  { id := "room_1", name := "Draw", hostId := "A",
    players := [("A", PicPlayer.make "A" "Alice" none),
                ("B", PicPlayer.make "B" "Bob" none)],
    spectators := [], state := PicState.waiting, currentRound := 0,
    totalRounds := 3, currentDrawerIndex := 0, currentWord := none,
    currentHint := none, hintsRevealed := 0, roundStartTime := none,
    roundTimer := false, hintTimer := false, wordChoiceTimer := false,
    drawHistory := [], redoHistory := [], correctGuessers := [],
    difficulty := "medium", language := "en", maxPlayers := 8,
    customWords := [], createdAt := 0, drawingStats := [],
    currentRoundHadCorrectGuess := false, wordChoices := none }

/-- The same room mid-game and at its player capacity. -/
def picFullPlayingRoom : PicRoom :=
  { picBaseRoom with state := PicState.playing, maxPlayers := 2 }

/-- The same room mid-game with free capacity. -/
def picOpenPlayingRoom : PicRoom :=
  { picBaseRoom with state := PicState.playing }

def playerC : PicPlayer := PicPlayer.make "C" "Carol" none

end PictFixtures

section HitsterFixtures

open Hitster

def song1990 : Song := ⟨"yt1990", 1990⟩

def song2005 : Song := ⟨"yt2005", 2005⟩

def song1980 : Song := ⟨"yt1980", 1980⟩

/-- A music-timeline room whose player `u` holds the timeline
`[1990, 2005]`, with a 1980 song drawn. -/
def hitRoom : HitsterRoom :=
  { id := "h1", name := "Timeline", hostId := "u", hostName := "Uma",
    players := [("u", { id := "u", name := "Uma",
                        timeline := [song1990, song2005], score := 2,
                        connected := true }),
                ("v", { id := "v", name := "Vic", timeline := [],
                        score := 0, connected := true })],
    spectators := [], state := HState.playing, currentPlayerIndex := 0,
    currentSong := some song1980, usedSongs := ["yt1980"],
    turnPhase := TurnPhase.placing, stealQueue := [],
    currentStealerIndex := 0, cardsToWin := 10, maxPlayersSetting := 8,
    playerOrder := ["u", "v"] }

end HitsterFixtures

/-! ## Association-list lemmas -/

theorem mget_cons {α : Type} (e : String × α) (m : List (String × α))
    (k : String) :
    mget (e :: m) k = if e.1 = k then some e.2 else mget m k := by
  by_cases h : e.1 = k <;> simp [mget, List.find?_cons, h]

theorem mget_mset {α : Type} (m : List (String × α)) (k k' : String)
    (v : α) :
    mget (mset m k v) k' = if k = k' then some v else mget m k' := by
  induction m with
  | nil => rw [mset, mget_cons]
  | cons e rest ih =>
    by_cases he : e.1 = k
    · rw [mset, if_pos he, mget_cons]
      by_cases h : k = k'
      · rw [if_pos h, if_pos h]
      · rw [if_neg h, if_neg h, mget_cons,
          if_neg (fun hh => h (he.symm.trans hh))]
    · rw [mset, if_neg he, mget_cons, ih]
      by_cases h1 : e.1 = k' <;> by_cases h2 : k = k' <;>
        simp_all [mget_cons]

theorem mhas_mset {α : Type} (m : List (String × α)) (k k' : String)
    (v : α) :
    mhas (mset m k v) k' = true ↔ (k = k' ∨ mhas m k' = true) := by
  rw [mhas, mhas, mget_mset]
  by_cases h : k = k' <;> simp [h]

theorem mget_mdel {α : Type} (m : List (String × α)) (k k' : String) :
    mget (mdel m k) k' = if k = k' then none else mget m k' := by
  induction m with
  | nil =>
    rw [mdel]
    by_cases h : k = k' <;> simp [mget, h]
  | cons e rest ih =>
    by_cases he : e.1 = k
    · rw [mdel, if_pos he, ih]
      by_cases h : k = k'
      · rw [if_pos h, if_pos h]
      · rw [if_neg h, if_neg h, mget_cons,
          if_neg (fun hh => h (he.symm.trans hh))]
    · rw [mdel, if_neg he, mget_cons, ih, mget_cons]
      by_cases h1 : e.1 = k' <;> by_cases h2 : k = k' <;> simp_all

theorem mhas_mdel {α : Type} (m : List (String × α)) (k k' : String) :
    mhas (mdel m k) k' = true ↔ (mhas m k' = true ∧ k ≠ k') := by
  rw [mhas, mhas, mget_mdel]
  by_cases h : k = k' <;> simp [h]

theorem mhas_mapValues {α β : Type} (m : List (String × α))
    (f : String × α → β) (k : String) :
    mhas (m.map (fun e => (e.1, f e))) k = mhas m k := by
  induction m with
  | nil => rfl
  | cons e rest ih =>
    rw [List.map_cons, mhas, mhas, mget_cons, mget_cons]
    by_cases h : e.1 = k <;> simp_all [mhas]

/-! ## Claims -/

section ClaimC1

open Pesten

/-- C1: for the `canPlayCard` of the shedding-card game, in every configuration
satisfying the invariants that hold throughout play (a pending pile is
topped by a 2 or a joker, and a chosen suit is binding only while a Jack
tops the pile): with no draw obligation pending, jokers and Jacks are
always legal and any other card is legal iff it matches the active suit
(the chosen suit when a Jack is in effect, else the suit of the top card)
or the rank of the top card; with a draw obligation pending, a joker is
always legal, a 2 is legal iff the top of the pile is itself a 2 or the pile is
joker-topped, and every other card is illegal. -/
theorem canPlayCard_matches_spec (card topCard : Card) (cho : Option Suit)
    (p : Nat)
    (hp : 0 < p → topCard.rank = Rank.r2 ∨
      (topCard.suit = Suit.joker ∧ topCard.rank = Rank.jokerRank))
    (hc : cho ≠ none → topCard.rank = Rank.jack) :
    canPlayCard card topCard cho p = true ↔
      specLegalPlay card topCard cho p := by
  unfold canPlayCard specLegalPlay isJokerCard
  rcases Nat.eq_zero_or_pos p with h0 | h0
  · subst h0
    cases cho with
    | none => split_ifs <;> simp_all
    | some s =>
      have htop : topCard.rank = Rank.jack := hc (by simp)
      split_ifs <;> simp_all
  · have hq := hp h0
    cases cho with
    | none =>
      rw [if_pos ⟨h0, hq⟩, if_pos h0]
      split_ifs with h1 h2 h3
      · simp_all
      · simp_all
      · simp_all
      · simp_all
        tauto
    | some s =>
      have htop : topCard.rank = Rank.jack := hc (by simp)
      rcases hq with hq | hq
      · simp_all
      · simp_all

/-- Witness for C1: a joker played onto a 2-topped pile with two pending
draws — the invariant hypotheses hold concretely and the equivalence
applies. -/
theorem canPlayCard_matches_spec_witness :
    canPlayCard ⟨Suit.joker, Rank.jokerRank, "joker_1"⟩
        ⟨Suit.hearts, Rank.r2, "2_hearts"⟩ none 2 = true ↔
      specLegalPlay ⟨Suit.joker, Rank.jokerRank, "joker_1"⟩
        ⟨Suit.hearts, Rank.r2, "2_hearts"⟩ none 2 :=
  canPlayCard_matches_spec _ _ _ _ (fun _ => Or.inl rfl)
    (fun h => absurd rfl h)

end ClaimC1

section ClaimC3

open Pesten

/-- C3: the code-level behaviour at the failing input of the claim.  In a
room where the chosen suit of a previous Jack (`hearts`) is still binding, the
current player plays a Jack without supplying a suit: the call returns the
structured `needsSuit` failure, but the room state is NOT fully restored —
`chosenSuit` has been cleared from `some hearts` to `none` (line 342 sets
it before the wild-branch validation, and the rollback at lines 373–377
restores only the hand, the discard pile and the two stat counters), and
the returned card sits at the end of the hand rather than its original
position. -/
theorem playCard_wild_rollback_loses_chosenSuit :
    (playCard 0 jackRollbackRoom "p0" "J_spades" none).map
        (fun pr => (pr.1.success, pr.1.needsSuit, pr.1.error,
          pr.2.chosenSuit, pr.2.players.map (fun q => q.hand.map Card.id),
          pr.2.discardPile.map Card.id, pr.2.pendingDraws,
          pr.2.currentPlayerIndex)) =
      some (false, true, some "Must choose a suit", none,
        [["5_diamonds", "J_spades"], ["3_clubs"]], ["J_hearts"], 0, 0) ∧
    jackRollbackRoom.chosenSuit = some Suit.hearts ∧
    (jackRollbackRoom.players.map (fun q => q.hand.map Card.id)) =
      [["J_spades", "5_diamonds"], ["3_clubs"]] := by
  refine ⟨?_, rfl, rfl⟩
  rfl

end ClaimC3

section ClaimC4

open Pict

/-- C4: the code-level behaviour at the failing input of the claim.  In a
`waiting`-state room (no current word), a non-drawer member submits a
guess: `handleGuess` has no phase guard, reaches
`checkGuess(guess, null)`, and the JS method throws a `TypeError`
(`word.toLowerCase()` on `null`) instead of returning a structured
result — modelled by the embedded `handleGuess` returning `none`. -/
theorem handleGuess_throws_on_null_word :
    handleGuess 0 picBaseRoom "B" "cat" = none ∧
    picBaseRoom.state = PicState.waiting ∧
    picBaseRoom.currentWord = none ∧
    mhas picBaseRoom.players "B" = true := by
  exact ⟨rfl, rfl, rfl, rfl⟩

end ClaimC4

section ClaimC7

open Hitster

/-- C7: `checkPlacement(userId, position)` reports a placement correct iff
the year of the drawn song is at least the year of the timeline entry
immediately before the insertion index (when one exists) and at most the
year of the entry immediately after (when one exists); and concretely, for
the player with timeline `[1990, 2005]`, placing a 1980 card at position 0
is reported correct. -/
theorem checkPlacement_neighbor_rule :
    (∀ (room : HitsterRoom) (uid : String) (pos : Nat)
      (player : HPlayer) (song : Song),
      mget room.players uid = some player →
      room.currentSong = some song →
      pos ≤ player.timeline.length →
      ∃ r : PlacementResult,
        checkPlacement room uid pos = some r ∧ r.valid = true ∧
          (r.correct = true ↔
            (pos > 0 →
              (player.timeline.getD (pos - 1) ⟨"", 0⟩).year ≤ song.year) ∧
            (pos < player.timeline.length →
              song.year ≤ (player.timeline.getD pos ⟨"", 0⟩).year))) ∧
    (checkPlacement hitRoom "u" 0).map
        (fun r => (r.valid, r.correct)) = some (true, true) := by
  constructor
  · intro room uid pos player song hplayer hsong hpos
    unfold checkPlacement
    rw [hplayer, hsong]
    dsimp only
    have hguard : ¬ (pos > 0 ∧ (player.timeline.get? (pos - 1)).isNone = true) := by
      rintro ⟨hpos0, hnone⟩
      have hlt : pos - 1 < player.timeline.length := by omega
      rw [List.get?_eq_getElem?, List.getElem?_eq_getElem hlt] at hnone
      simp at hnone
    rw [if_neg hguard]
    refine ⟨_, rfl, rfl, ?_⟩
    simp only [decide_eq_true_eq]
    constructor
    · intro h
      push_neg at h
      exact h
    · intro h
      push_neg
      exact h
  · rfl

/-- Witness for C7: the general neighbour rule applied to the concrete
`[1990, 2005]` timeline with the 1980 card at position 0. -/
theorem checkPlacement_neighbor_rule_witness :
    ∃ r : PlacementResult,
      checkPlacement hitRoom "u" 0 = some r ∧ r.valid = true ∧
        (r.correct = true ↔
          (0 > 0 →
            (([song1990, song2005].getD (0 - 1) ⟨"", 0⟩)).year ≤
              (1980 : ℤ)) ∧
          (0 < [song1990, song2005].length →
            (1980 : ℤ) ≤ ([song1990, song2005].getD 0 ⟨"", 0⟩).year)) :=
  checkPlacement_neighbor_rule.1 hitRoom "u" 0
    { id := "u", name := "Uma", timeline := [song1990, song2005],
      score := 2, connected := true }
    song1980 rfl rfl (by simp)

end ClaimC7

section ClaimC8

open Pesten

/-- The skip-disconnected loop, characterized: it stops after some `k ≤
fuel` further steps, every index passed over held a disconnected player,
and it stops either on a connected player or because the attempt bound ran
out. -/
theorem skipDisconnected_iter (players : List PPlayer) (dir : Int) :
    ∀ fuel i : Nat, ∃ k : Nat, k ≤ fuel ∧
      skipDisconnected players dir fuel i =
        (stepIdx players.length dir)^[k] i ∧
      (∀ j, j < k →
        (players.getD ((stepIdx players.length dir)^[j] i)
          dummyPlayer).connected = false) ∧
      ((players.getD ((stepIdx players.length dir)^[k] i)
          dummyPlayer).connected = true ∨ k = fuel) := by
  intro fuel
  induction fuel with
  | zero =>
    intro i
    exact ⟨0, Nat.le_refl 0, rfl, fun j hj => absurd hj (Nat.not_lt_zero j),
      Or.inr rfl⟩
  | succ n ih =>
    intro i
    rw [skipDisconnected]
    by_cases h : (players.getD i dummyPlayer).connected = true
    · rw [if_pos h]
      exact ⟨0, Nat.zero_le _, rfl, fun j hj => absurd hj (Nat.not_lt_zero j),
        Or.inl h⟩
    · rw [if_neg h]
      obtain ⟨k, hk, heq, hmid, hlast⟩ := ih (stepIdx players.length dir i)
      refine ⟨k + 1, by omega, ?_, ?_, ?_⟩
      · rw [heq, Function.iterate_succ_apply]
      · intro j hj
        cases j with
        | zero => simpa using h
        | succ j' =>
          rw [Function.iterate_succ_apply]
          exact hmid j' (by omega)
      · rw [Function.iterate_succ_apply]
        rcases hlast with hl | hl
        · exact Or.inl hl
        · exact Or.inr (by omega)

/-- C8: the turn advance of the shedding-card game sets the index to
`(currentIndex + direction + N) mod N` and, while the player at the
resulting index is disconnected, repeats that step at most `N` times; and
in the concrete four-player room with all players connected and direction
−1, playing an 8 (skip) advances the turn twice from index 0 and lands on
index 2. -/
theorem nextTurn_rotation :
    (∀ room : PestenRoom, 0 < room.players.length →
      ∃ k ≤ room.players.length,
        (nextTurn room).currentPlayerIndex =
          (stepIdx room.players.length room.direction)^[k + 1]
            room.currentPlayerIndex ∧
        (∀ j, j < k →
          (room.players.getD
            ((stepIdx room.players.length room.direction)^[j + 1]
              room.currentPlayerIndex) dummyPlayer).connected = false) ∧
        ((room.players.getD
            ((stepIdx room.players.length room.direction)^[k + 1]
              room.currentPlayerIndex) dummyPlayer).connected = true ∨
          k = room.players.length)) ∧
    (playCard 0 skipRoom "q0" "8_hearts" none).map
        (fun pr => (pr.1.success, pr.1.effect, pr.2.currentPlayerIndex)) =
      some (true, some Effect.skip, 2) := by
  constructor
  · intro room _hn
    obtain ⟨k, hk, heq, hmid, hlast⟩ :=
      skipDisconnected_iter room.players room.direction room.players.length
        (stepIdx room.players.length room.direction room.currentPlayerIndex)
    refine ⟨k, hk, ?_, ?_, ?_⟩
    · rw [nextTurn]
      dsimp only
      rw [heq, ← Function.iterate_succ_apply]
    · intro j hj
      rw [Function.iterate_succ_apply]
      exact hmid j hj
    · rw [Function.iterate_succ_apply]
      exact hlast
  · rfl

/-- Witness for C8: the rotation characterization applied to the concrete
four-player, direction −1 room. -/
theorem nextTurn_rotation_witness :
    0 < skipRoom.players.length ∧
    ∃ k ≤ skipRoom.players.length,
      (nextTurn skipRoom).currentPlayerIndex =
        (stepIdx skipRoom.players.length skipRoom.direction)^[k + 1]
          skipRoom.currentPlayerIndex ∧
      (∀ j, j < k →
        (skipRoom.players.getD
          ((stepIdx skipRoom.players.length skipRoom.direction)^[j + 1]
            skipRoom.currentPlayerIndex) dummyPlayer).connected = false) ∧
      ((skipRoom.players.getD
          ((stepIdx skipRoom.players.length skipRoom.direction)^[k + 1]
            skipRoom.currentPlayerIndex) dummyPlayer).connected = true ∨
        k = skipRoom.players.length) :=
  ⟨by decide, nextTurn_rotation.1 skipRoom (by decide)⟩

end ClaimC8

section ClaimC9

open Pesten

/-- The serialized `players` array carries exactly the original ids, with
the hand attached precisely on the entry whose id is that of the
requesting player. -/
theorem serializePlayers_ids_hands (P : String) (cur : Nat) :
    ∀ (start : Nat) (ps : List PPlayer),
      (serializePlayers (some P) cur start ps).map
          (fun e => (e.id, e.hand)) =
        ps.map (fun p => (p.id, if p.id = P then some p.hand else none)) := by
  intro start ps
  induction ps generalizing start with
  | nil => rfl
  | cons p rest ih =>
    rw [serializePlayers, List.map_cons, List.map_cons, ih]
    simp

/-- The hands present in a serialized state are the hands of the players
whose id is that of the requesting player. -/
theorem serializePlayers_visible (P : String) (cur : Nat) :
    ∀ (start : Nat) (ps : List PPlayer),
      (serializePlayers (some P) cur start ps).filterMap
          (fun e => e.hand) =
        (ps.filter (fun p => p.id = P)).map (fun p => p.hand) := by
  intro start ps
  induction ps generalizing start with
  | nil => rfl
  | cons p rest ih =>
    rw [serializePlayers, List.filterMap_cons, List.filter_cons]
    by_cases h : p.id = P <;> simp [h, ih]

/-- With pairwise-distinct player ids, at most one player carries the id
`P`, so the filtered hand list collapses. -/
theorem filter_id_eq_singleton (P : String) :
    ∀ ps : List PPlayer, (ps.map PPlayer.id).Nodup →
      ∀ p ∈ ps, p.id = P →
        (ps.filter (fun q => q.id = P)).map (fun q => q.hand) = [p.hand] := by
  intro ps
  induction ps with
  | nil =>
    intro _ p hp
    exact absurd hp (List.not_mem_nil p)
  | cons q rest ih =>
    intro hnodup p hp hpid
    rw [List.map_cons, List.nodup_cons] at hnodup
    rcases List.mem_cons.mp hp with rfl | hrest
    · rw [List.filter_cons, if_pos (by simp [hpid])]
      rw [List.map_cons]
      have hnone : rest.filter (fun q => q.id = P) = [] := by
        rw [List.filter_eq_nil_iff]
        intro r hr
        simp only [decide_eq_true_eq]
        intro hr2
        exact hnodup.1 (hpid ▸ hr2 ▸ List.mem_map_of_mem PPlayer.id hr)
      rw [hnone]
      rfl
    · have hq : ¬ (q.id = P) := by
        intro hq2
        have : p.id ∈ rest.map PPlayer.id := List.mem_map_of_mem PPlayer.id hrest
        exact hnodup.1 ((hq2.trans hpid.symm) ▸ this)
      rw [List.filter_cons, if_neg (by simp [hq])]
      exact ih hnodup.2 p hrest hpid

/-- C9: for every player id `P` and every room state, the serialization
`getState(P)` attaches the full hand array exactly on the entry whose id
is `P` and leaves the hand field absent on every other entry; with
pairwise-distinct ids, re-deriving the cards visible to `P` from the
serialized state yields exactly the own hand of `P` (and nothing when `P` is
not in the room). -/
theorem getState_hand_privacy (room : PestenRoom) (P : String)
    (hnodup : (room.players.map PPlayer.id).Nodup) :
    ((getState room (some P)).players.map (fun e => (e.id, e.hand)) =
      room.players.map
        (fun p => (p.id, if p.id = P then some p.hand else none))) ∧
    (∀ p ∈ room.players, p.id = P →
      cardsVisibleTo (getState room (some P)) = p.hand) ∧
    ((∀ p ∈ room.players, p.id ≠ P) →
      cardsVisibleTo (getState room (some P)) = []) := by
  refine ⟨serializePlayers_ids_hands P room.currentPlayerIndex 0 room.players,
    ?_, ?_⟩
  · intro p hp hpid
    rw [cardsVisibleTo, visibleHands, getState]
    dsimp only
    rw [serializePlayers_visible, filter_id_eq_singleton P room.players
      hnodup p hp hpid]
    simp
  · intro hnone
    rw [cardsVisibleTo, visibleHands, getState]
    dsimp only
    rw [serializePlayers_visible]
    have : room.players.filter (fun q => q.id = P) = [] := by
      rw [List.filter_eq_nil_iff]
      intro r hr
      simp only [decide_eq_true_eq]
      exact hnone r hr
    rw [this]
    rfl

/-- Witness for C9: in the concrete two-player room, the state serialized
for `p0` exposes exactly the hand of `p0`. -/
theorem getState_hand_privacy_witness :
    cardsVisibleTo (getState jackRollbackRoom (some "p0")) =
      [cardJS, card5D] :=
  (getState_hand_privacy jackRollbackRoom "p0" (by decide)).2.1
    (mkPlayer "p0" "Alice" [cardJS, card5D]) (by decide) rfl

end ClaimC9

section ClaimC2

open Pict

/-- Ceiling of a fifth, computed in naturals. -/
theorem nat_ceil_div_five (a : ℕ) : Nat.ceil ((a : ℚ) / 5) = (a + 4) / 5 := by
  rcases Nat.eq_zero_or_pos a with rfl | ha
  · norm_num
  · have hn : (a + 4) / 5 ≠ 0 := by omega
    rw [Nat.ceil_eq_iff hn]
    constructor
    · rw [lt_div_iff₀ (by norm_num : (0:ℚ) < 5)]
      have h : ((a + 4) / 5 - 1) * 5 < a := by omega
      exact_mod_cast h
    · rw [div_le_iff₀ (by norm_num : (0:ℚ) < 5)]
      have h : a ≤ (a + 4) / 5 * 5 := by omega
      exact_mod_cast h

/-- The armed reveal count, computed in naturals. -/
theorem scheduleRevealCount_eq (wl i : ℕ) :
    scheduleRevealCount wl i = min ((wl * (i + 1) + 4) / 5) (wl - 1) := by
  unfold scheduleRevealCount
  have h : ((wl : ℚ) * ((i : ℚ) + 1)) = ((wl * (i + 1) : ℕ) : ℚ) := by
    push_cast
    ring
  rw [h, nat_ceil_div_five]

/-- The armed reveal counts grow with the hint index. -/
theorem scheduleRevealCount_mono (wl : ℕ) {i j : ℕ} (h : i ≤ j) :
    scheduleRevealCount wl i ≤ scheduleRevealCount wl j := by
  rw [scheduleRevealCount_eq, scheduleRevealCount_eq]
  exact min_le_min
    (Nat.div_le_div_right (Nat.add_le_add_right
      (Nat.mul_le_mul_left wl (by omega)) 4)) le_rfl

/-- The reveal loop never exceeds its target size. -/
theorem revealLoop_card_le (indices : List Nat) (target : Nat) :
    ∀ (picks : List Nat) (acc : Finset Nat), acc.card ≤ target →
      (revealLoop indices target picks acc).card ≤ target := by
  intro picks
  induction picks with
  | nil =>
    intro acc h
    exact h
  | cons p ps ih =>
    intro acc h
    rw [revealLoop]
    by_cases hc : acc.card < target
    · rw [if_pos hc]
      exact ih _ (le_trans (Finset.card_insert_le _ _) (by omega))
    · rw [if_neg hc]
      exact h

/-- C2 (counterexample): for the 3-letter word `abc`, the first two
scheduled hints arm reveal counts 1 and 2; with the random draws picking
position 0 for the first hint and positions 1, 2 for the second, the first
hint shows the letter at position 0 and the second hint hides it again —
`generateHint` re-randomizes the revealed subset on every call, so an
earlier-revealed position does not persist. -/
theorem hint_positions_not_persistent_cex :
    scheduleRevealCount 3 0 = 1 ∧
    scheduleRevealCount 3 1 = 2 ∧
    (nonSpaceIndices ['a', 'b', 'c']).length = 3 ∧
    generateHint ['a', 'b', 'c'] 1 [0] = ['a', '_', '_'] ∧
    generateHint ['a', 'b', 'c'] 2 [1, 2] = ['_', 'b', 'c'] ∧
    (generateHint ['a', 'b', 'c'] 1 [0]).get? 0 = some 'a' ∧
    (generateHint ['a', 'b', 'c'] 2 [1, 2]).get? 0 = some '_' := by
  refine ⟨?_, ?_, by decide, by decide, by decide, by decide, by decide⟩
  · rw [scheduleRevealCount_eq]
    decide
  · rw [scheduleRevealCount_eq]
    decide

/-- C2 (as amended): across the scheduled hint reveals the armed reveal
count is monotonically non-decreasing, each hint reveals at most that many
positions (exactly that many whenever the random selection loop runs to
completion), and hence the number of revealed positions is non-decreasing
from hint to hint whenever both loops complete; the revealed positions
themselves are chosen afresh at random for each hint and need not
persist. -/
theorem hint_counts_monotone_no_persistence :
    (∀ wl i j : Nat, i ≤ j →
      scheduleRevealCount wl i ≤ scheduleRevealCount wl j) ∧
    (∀ (letters : List Char) (c : Nat) (picks : List Nat),
      (revealedSet letters c picks).card ≤
        min c (nonSpaceIndices letters).length) ∧
    (∀ (letters : List Char) (i j : Nat) (picks1 picks2 : List Nat),
      i ≤ j →
      (revealedSet letters
          (scheduleRevealCount (nonSpaceIndices letters).length i)
          picks1).card =
        min (scheduleRevealCount (nonSpaceIndices letters).length i)
          (nonSpaceIndices letters).length →
      (revealedSet letters
          (scheduleRevealCount (nonSpaceIndices letters).length j)
          picks2).card =
        min (scheduleRevealCount (nonSpaceIndices letters).length j)
          (nonSpaceIndices letters).length →
      (revealedSet letters
          (scheduleRevealCount (nonSpaceIndices letters).length i)
          picks1).card ≤
        (revealedSet letters
          (scheduleRevealCount (nonSpaceIndices letters).length j)
          picks2).card) := by
  refine ⟨fun wl i j h => scheduleRevealCount_mono wl h, ?_, ?_⟩
  · intro letters c picks
    unfold revealedSet
    exact revealLoop_card_le _ _ picks ∅ (by simp)
  · intro letters i j picks1 picks2 hij h1 h2
    rw [h1, h2]
    exact min_le_min (scheduleRevealCount_mono _ hij) le_rfl

/-- Witness for C2 (amended): the monotone-count conclusion at the word
`abc`, hints 0 and 1, with completing pick sequences. -/
theorem hint_counts_monotone_no_persistence_witness :
    (revealedSet ['a', 'b', 'c']
        (scheduleRevealCount (nonSpaceIndices ['a', 'b', 'c']).length 0)
        [0]).card ≤
      (revealedSet ['a', 'b', 'c']
        (scheduleRevealCount (nonSpaceIndices ['a', 'b', 'c']).length 1)
        [1, 2]).card := by
  refine hint_counts_monotone_no_persistence.2.2 ['a', 'b', 'c'] 0 1 [0]
    [1, 2] (by omega) ?_ ?_
  · rw [scheduleRevealCount_eq]
    decide
  · rw [scheduleRevealCount_eq]
    decide

end ClaimC2

section ClaimC5

open Pesten Pict

/-- C5 (counterexample): a draw-and-guess leaderboard entry with 2 games
played (below the minimum-games threshold of 3) has `skillRating` equal to
the raw average points (300 here), not the raw win rate (50 here) — the
below-threshold fallback of the draw-and-guess `getLeaderboard` is
`avgPoints`, not `winRate`. -/
theorem pict_gate_fallback_is_avgPoints_cex :
    (⟨2, 1, 600, 0, 0⟩ : PictLBData).gamesPlayed < 3 ∧
    (pictEntry ⟨2, 1, 600, 0, 0⟩).skillRating = 300 ∧
    (pictEntry ⟨2, 1, 600, 0, 0⟩).winRate = 50 ∧
    (pictEntry ⟨2, 1, 600, 0, 0⟩).skillRating ≠
      (pictEntry ⟨2, 1, 600, 0, 0⟩).winRate := by
  have hskill : (pictEntry ⟨2, 1, 600, 0, 0⟩).skillRating = 300 := by
    unfold pictEntry
    dsimp only
    rw [if_neg (by omega), if_pos (by omega)]
    unfold jsRound
    norm_num
  have hwin : (pictEntry ⟨2, 1, 600, 0, 0⟩).winRate = 50 := by
    unfold pictEntry
    dsimp only
    rw [if_pos (by omega)]
    unfold jsRound
    norm_num
  refine ⟨by decide, hskill, hwin, ?_⟩
  rw [hskill, hwin]
  omega

/-- C5 (as amended): in both sourced `getLeaderboard` computations the
discontinuity sits exactly at 3 games played — below it the shedding-card
entry falls back to the raw win rate and the draw-and-guess entry falls
back to the raw average points; at or above it each uses its full weighted
formula. -/
theorem leaderboard_gate_formulas :
    (∀ d : PestenLBData,
      (d.gamesPlayed < 3 →
        (pestenEntry d).skillRating = (pestenEntry d).winRate) ∧
      (3 ≤ d.gamesPlayed →
        (pestenEntry d).skillRating =
          pestenWeightedRating (pestenEntry d).winRate
            (pestenEntry d).avgDrawsForced (pestenEntry d).specialCardRate
            d.cardsDrawn d.gamesPlayed)) ∧
    (∀ d : PictLBData,
      (d.gamesPlayed < 3 →
        (pictEntry d).skillRating = (pictEntry d).avgPoints) ∧
      (3 ≤ d.gamesPlayed →
        (pictEntry d).skillRating =
          pictWeightedRating (pictEntry d).avgPoints (pictEntry d).winRate
            (pictEntry d).drawSuccessRate)) := by
  constructor
  · intro d
    constructor
    · intro h
      unfold pestenEntry
      dsimp only
      rw [if_neg (by omega)]
    · intro h
      unfold pestenEntry
      dsimp only
      rw [if_pos (by omega)]
  · intro d
    constructor
    · intro h
      unfold pictEntry
      dsimp only
      rw [if_neg (by omega)]
    · intro h
      unfold pictEntry
      dsimp only
      rw [if_pos (by omega)]

/-- Witness for C5 (amended): the fallback at 2 games played for the
shedding-card entry and the weighted formula at 3 games played for the
draw-and-guess entry. -/
theorem leaderboard_gate_formulas_witness :
    (pestenEntry ⟨2, 1, 10, 2, 4, 6⟩).skillRating =
      (pestenEntry ⟨2, 1, 10, 2, 4, 6⟩).winRate ∧
    (pictEntry ⟨3, 1, 600, 2, 1⟩).skillRating =
      pictWeightedRating (pictEntry ⟨3, 1, 600, 2, 1⟩).avgPoints
        (pictEntry ⟨3, 1, 600, 2, 1⟩).winRate
        (pictEntry ⟨3, 1, 600, 2, 1⟩).drawSuccessRate :=
  ⟨(leaderboard_gate_formulas.1 ⟨2, 1, 10, 2, 4, 6⟩).1 (by decide),
   (leaderboard_gate_formulas.2 ⟨3, 1, 600, 2, 1⟩).2 (by decide)⟩

end ClaimC5

section PictOpLemmas

open Pict

theorem endRoundSync_players (b : Bool) (r : PicRoom) :
    (endRoundSync b r).players = r.players := by
  unfold endRoundSync
  dsimp only
  split_ifs <;> rfl

theorem endRoundSync_spectators (b : Bool) (r : PicRoom) :
    (endRoundSync b r).spectators = r.spectators := by
  unfold endRoundSync
  dsimp only
  split_ifs <;> rfl

theorem endGameSync_players (r : PicRoom) :
    (endGameSync r).players = r.players := rfl

theorem endGameSync_spectators (r : PicRoom) :
    (endGameSync r).spectators = r.spectators := rfl

/-- The five branches of the draw-and-guess `addPlayer`, with their effect
on the two membership maps. -/
theorem addPlayer_cases (r : PicRoom) (p : PicPlayer) :
    (∃ ex, mget r.players p.id = some ex ∧
      (Pict.addPlayer r p).2.players =
        mset r.players p.id
          { ex with
            connected := some true,
            displayName := p.displayName,
            avatar := p.avatar } ∧
      (Pict.addPlayer r p).2.spectators = r.spectators) ∨
    (∃ sp, mget r.players p.id = none ∧
      mget r.spectators p.id = some sp ∧
      (Pict.addPlayer r p).2.players = r.players ∧
      (Pict.addPlayer r p).2.spectators =
        mset r.spectators p.id
          { sp with
            connected := some true,
            displayName := p.displayName,
            avatar := p.avatar }) ∨
    ((Pict.addPlayer r p).2 = r) ∨
    (mget r.players p.id = none ∧ mget r.spectators p.id = none ∧
      (Pict.addPlayer r p).2.players = r.players ∧
      (Pict.addPlayer r p).2.spectators =
        mset r.spectators p.id { p with isSpectator := true }) ∨
    (mget r.players p.id = none ∧ mget r.spectators p.id = none ∧
      (Pict.addPlayer r p).2.players = mset r.players p.id p ∧
      (Pict.addPlayer r p).2.spectators = r.spectators) := by
  unfold Pict.addPlayer
  cases hm : mget r.players p.id with
  | some ex => exact Or.inl ⟨ex, rfl, rfl, rfl⟩
  | none =>
    cases hms : mget r.spectators p.id with
    | some sp => exact Or.inr (Or.inl ⟨sp, rfl, rfl, rfl, rfl⟩)
    | none =>
      dsimp only
      by_cases hfull : msize r.players ≥ r.maxPlayers
      · rw [if_pos hfull]
        exact Or.inr (Or.inr (Or.inl rfl))
      · rw [if_neg hfull]
        by_cases hact : r.state = PicState.playing ∨
            r.state = PicState.betweenRounds
        · rw [if_pos hact]
          exact Or.inr (Or.inr (Or.inr (Or.inl ⟨rfl, rfl, rfl, rfl⟩)))
        · rw [if_neg hact]
          exact Or.inr (Or.inr (Or.inr (Or.inr ⟨rfl, rfl, rfl, rfl⟩)))

/-- The branches of `promoteSpectatorToPlayer`: failure leaves the room
unchanged; success requires the `waiting` state and moves the id from the
spectator map to the player map. -/
theorem promote_cases (r : PicRoom) (q : String) :
    ((promoteSpectatorToPlayer r q).2 = r) ∨
    (∃ sp, mget r.spectators q = some sp ∧ r.state = PicState.waiting ∧
      (promoteSpectatorToPlayer r q).2.players =
        mset r.players q { sp with isSpectator := false, score := 0 } ∧
      (promoteSpectatorToPlayer r q).2.spectators = mdel r.spectators q) := by
  unfold promoteSpectatorToPlayer
  cases hm : mget r.spectators q with
  | none => exact Or.inl rfl
  | some sp =>
    dsimp only
    by_cases hfull : msize r.players ≥ r.maxPlayers
    · rw [if_pos hfull]
      exact Or.inl rfl
    · rw [if_neg hfull]
      by_cases hw : r.state ≠ PicState.waiting
      · rw [if_pos hw]
        exact Or.inl rfl
      · rw [if_neg hw]
        exact Or.inr ⟨sp, rfl, not_not.mp hw, rfl, rfl⟩

/-- `removePlayer` either touches no membership map, removes the id from
the spectator map, or removes it from the player map. -/
theorem removePlayer_cases (r : PicRoom) (i : String) :
    ((Pict.removePlayer r i).players = r.players ∧
      ((Pict.removePlayer r i).spectators = r.spectators ∨
        (Pict.removePlayer r i).spectators = mdel r.spectators i)) ∨
    ((Pict.removePlayer r i).players = mdel r.players i ∧
      (Pict.removePlayer r i).spectators = r.spectators) := by
  unfold Pict.removePlayer
  by_cases h1 : mhas r.spectators i = true
  · rw [if_pos h1]
    unfold removeSpectator
    cases hm : mget r.spectators i with
    | none => exact Or.inl ⟨rfl, Or.inl rfl⟩
    | some sp => exact Or.inl ⟨rfl, Or.inr rfl⟩
  · rw [if_neg h1]
    cases hm : mget r.players i with
    | none => exact Or.inl ⟨rfl, Or.inl rfl⟩
    | some pl =>
      refine Or.inr ⟨?_, ?_⟩ <;>
      · dsimp only
        split_ifs <;>
          simp [endRoundSync_players, endGameSync_players,
            endRoundSync_spectators, endGameSync_spectators]

/-- The spectator-promotion loop of the reset callback preserves the
disjointness of the two membership maps. -/
theorem promoteLoop_disjoint :
    ∀ (lst : List (String × PicPlayer)) (r : PicRoom),
      picDisjoint r → picDisjoint (promoteLoop lst r) := by
  intro lst
  induction lst with
  | nil =>
    intro r hd
    exact hd
  | cons e rest ih =>
    intro r hd
    rw [promoteLoop]
    by_cases hfull : msize r.players ≥ r.maxPlayers
    · rw [if_pos hfull]
      exact hd
    · rw [if_neg hfull]
      apply ih
      intro k hk
      obtain ⟨hkp, hks⟩ := hk
      rcases (mhas_mset _ _ _ _).mp hkp with heq | hkp2
      · exact ((mhas_mdel _ _ _).mp hks).2 heq
      · exact hd k ⟨hkp2, ((mhas_mdel _ _ _).mp hks).1⟩

end PictOpLemmas

section ClaimC6

open Pict

/-- C6 (counterexample): a non-member joining a draw-and-guess room whose
game is active is REJECTED when the room already holds its maximum number
of players — the capacity check at line 238 runs before the active-game
spectator branch at line 241, so the claimed "never rejected, even at
capacity" fails. -/
theorem addPlayer_full_active_rejected_cex :
    (Pict.addPlayer picFullPlayingRoom playerC).1 =
      { success := false, error := some "Room is full" } ∧
    (Pict.addPlayer picFullPlayingRoom playerC).2 = picFullPlayingRoom ∧
    picFullPlayingRoom.state = PicState.playing ∧
    msize picFullPlayingRoom.players = picFullPlayingRoom.maxPlayers ∧
    mhas picFullPlayingRoom.players "C" = false ∧
    mhas picFullPlayingRoom.spectators "C" = false :=
  ⟨rfl, rfl, rfl, rfl, rfl, rfl⟩

/-- C6 (as amended): a non-member joining a draw-and-guess room whose game
is active (`playing` or `between_rounds`) is added as a spectator with an
as-spectator success result provided the players map is below
`maxPlayers` (at capacity the join is rejected with "Room is full", as the
counterexample shows); and across the public operations an id held in the
spectator map enters the player map only through the game-end reset or
through spectator promotion, which requires the `waiting` state. -/
theorem addPlayer_active_spectates_below_capacity :
    (∀ (room : PicRoom) (p : PicPlayer),
      mget room.players p.id = none →
      mget room.spectators p.id = none →
      msize room.players < room.maxPlayers →
      (room.state = PicState.playing ∨
        room.state = PicState.betweenRounds) →
      (Pict.addPlayer room p).1 =
        { success := true, asSpectator := true } ∧
      (Pict.addPlayer room p).2.players = room.players ∧
      mget (Pict.addPlayer room p).2.spectators p.id =
        some { p with isSpectator := true }) ∧
    (∀ (op : PicOp) (r : PicRoom) (pid : String),
      mhas r.spectators pid = true →
      mhas r.players pid = false →
      mhas (PicOp.apply op r).players pid = true →
      op = PicOp.reset ∨
        ∃ q, op = PicOp.promote q ∧ r.state = PicState.waiting) := by
  constructor
  · intro room p hm hms hcap hact
    unfold Pict.addPlayer
    rw [hm, hms]
    dsimp only
    rw [if_neg (by omega), if_pos hact]
    unfold Pict.addSpectator
    refine ⟨rfl, rfl, ?_⟩
    dsimp only
    rw [mget_mset, if_pos rfl]
  · intro op r pid hs hp hafter
    cases op with
    | addP p =>
      exfalso
      have hap : mhas (Pict.addPlayer r p).2.players pid = true := hafter
      rcases addPlayer_cases r p with
        ⟨ex, hm, hpl, _⟩ | ⟨sp, hm, hms, hpl, _⟩ | heq |
        ⟨hm, hms, hpl, _⟩ | ⟨hm, hms, hpl, _⟩
      · rw [hpl] at hap
        rcases (mhas_mset _ _ _ _).mp hap with heq2 | hmem
        · rw [← heq2] at hp
          rw [mhas, hm] at hp
          simp at hp
        · rw [hmem] at hp
          simp at hp
      · rw [hpl] at hap
        rw [hap] at hp
        simp at hp
      · rw [heq] at hap
        rw [hap] at hp
        simp at hp
      · rw [hpl] at hap
        rw [hap] at hp
        simp at hp
      · rw [hpl] at hap
        rcases (mhas_mset _ _ _ _).mp hap with heq2 | hmem
        · rw [← heq2] at hs
          rw [mhas, hms] at hs
          simp at hs
        · rw [hmem] at hp
          simp at hp
    | addS p =>
      exfalso
      have hap : mhas (Pict.addSpectator r p).2.players pid = true := hafter
      unfold Pict.addSpectator at hap
      dsimp only at hap
      rw [hap] at hp
      simp at hp
    | promote q =>
      rcases promote_cases r q with heq | ⟨sp, hm, hw, hpl, _⟩
      · exfalso
        have hap : mhas (promoteSpectatorToPlayer r q).2.players pid = true :=
          hafter
        rw [heq] at hap
        rw [hap] at hp
        simp at hp
      · exact Or.inr ⟨q, rfl, hw⟩
    | removeP i =>
      exfalso
      have hap : mhas (Pict.removePlayer r i).players pid = true := hafter
      rcases removePlayer_cases r i with ⟨hpl, _⟩ | ⟨hpl, _⟩
      · rw [hpl] at hap
        rw [hap] at hp
        simp at hp
      · rw [hpl] at hap
        have := ((mhas_mdel _ _ _).mp hap).1
        rw [this] at hp
        simp at hp
    | reset => exact Or.inl rfl

/-- Witness for C6 (amended): joining the mid-game room with free
capacity yields the as-spectator result. -/
theorem addPlayer_active_spectates_below_capacity_witness :
    (Pict.addPlayer picOpenPlayingRoom playerC).1 =
      { success := true, asSpectator := true } ∧
    (Pict.addPlayer picOpenPlayingRoom playerC).2.players =
      picOpenPlayingRoom.players ∧
    mget (Pict.addPlayer picOpenPlayingRoom playerC).2.spectators
        playerC.id =
      some { playerC with isSpectator := true } :=
  addPlayer_active_spectates_below_capacity.1 picOpenPlayingRoom playerC
    rfl rfl (by decide) (Or.inl rfl)

end ClaimC6

section ClaimC10

open Pict Hitster

/-- The two branches of the music-timeline `addSpectator`: rejected for a
current player, otherwise the id joins the spectator map only. -/
theorem hit_addSpectator_cases (r : HitsterRoom) (uid uname : String) :
    ((Hitster.addSpectator r uid uname).2 = r ∧
      mhas r.players uid = true) ∨
    (mhas r.players uid = false ∧
      (Hitster.addSpectator r uid uname).2.players = r.players ∧
      (Hitster.addSpectator r uid uname).2.spectators =
        mset r.spectators uid ⟨uid, uname, true⟩) := by
  unfold Hitster.addSpectator
  by_cases h : mhas r.players uid = true
  · rw [if_pos h]
    exact Or.inl ⟨rfl, h⟩
  · rw [if_neg h]
    exact Or.inr ⟨by simpa using h, rfl, rfl⟩

/-- The branches of the music-timeline `addPlayer` and their effect on the
two membership maps. -/
theorem hit_addPlayer_cases (r : HitsterRoom) (uid uname : String) :
    (∃ ex, mget r.players uid = some ex ∧
      (Hitster.addPlayer r uid uname).2.players =
        mset r.players uid { ex with connected := true, name := uname } ∧
      (Hitster.addPlayer r uid uname).2.spectators = r.spectators) ∨
    (∃ sp, mget r.players uid = none ∧ mget r.spectators uid = some sp ∧
      (Hitster.addPlayer r uid uname).2.players = r.players ∧
      (Hitster.addPlayer r uid uname).2.spectators =
        mset r.spectators uid { sp with connected := true, name := uname }) ∨
    ((Hitster.addPlayer r uid uname).2 =
      (Hitster.addSpectator r uid uname).2 ∧ mget r.players uid = none) ∨
    ((Hitster.addPlayer r uid uname).2 = r) ∨
    (mget r.players uid = none ∧ mget r.spectators uid = none ∧
      (Hitster.addPlayer r uid uname).2.players =
        mset r.players uid
          ⟨uid, uname, [], 0, true⟩ ∧
      (Hitster.addPlayer r uid uname).2.spectators = r.spectators) := by
  unfold Hitster.addPlayer
  cases hm : mget r.players uid with
  | some ex => exact Or.inl ⟨ex, rfl, rfl, rfl⟩
  | none =>
    cases hms : mget r.spectators uid with
    | some sp => exact Or.inr (Or.inl ⟨sp, rfl, rfl, rfl, rfl⟩)
    | none =>
      dsimp only
      by_cases hplay : r.state = HState.playing
      · rw [if_pos hplay]
        exact Or.inr (Or.inr (Or.inl ⟨rfl, rfl⟩))
      · rw [if_neg hplay]
        by_cases hfull : msize r.players ≥ r.maxPlayersSetting
        · rw [if_pos hfull]
          exact Or.inr (Or.inr (Or.inr (Or.inl rfl)))
        · rw [if_neg hfull]
          exact Or.inr (Or.inr (Or.inr (Or.inr ⟨rfl, rfl, rfl, rfl⟩)))

/-- The music-timeline `removePlayer` always deletes the id from both
membership maps (the cursor clamp and host reassignment touch neither). -/
theorem hit_removePlayer_maps (r : HitsterRoom) (uid : String) :
    (Hitster.removePlayer r uid).2.players = mdel r.players uid ∧
    (Hitster.removePlayer r uid).2.spectators = mdel r.spectators uid := by
  unfold Hitster.removePlayer
  dsimp only
  constructor <;>
  · split_ifs <;>
      first
        | rfl
        | (rename_i h1 h2
           cases hh : (mdel r.players uid).head? <;> rfl)

/-- C10 (counterexample): the draw-and-guess `addSpectator` has no
membership guard (unlike the music-timeline one), so invoking it directly
with the id of a current player puts that id in both maps at once. -/
theorem addSpectator_membership_overlap_cex :
    mhas (Pict.addSpectator picBaseRoom
        (PicPlayer.make "A" "Alice" none)).2.players "A" = true ∧
    mhas (Pict.addSpectator picBaseRoom
        (PicPlayer.make "A" "Alice" none)).2.spectators "A" = true ∧
    ¬ picDisjoint (Pict.addSpectator picBaseRoom
        (PicPlayer.make "A" "Alice" none)).2 ∧
    mhas picBaseRoom.players "A" = true ∧
    picDisjoint picBaseRoom := by
  refine ⟨rfl, rfl, ?_, rfl, ?_⟩
  · intro hd
    exact hd "A" ⟨rfl, rfl⟩
  · intro k hk
    obtain ⟨_, hks⟩ := hk
    rw [show picBaseRoom.spectators = [] from rfl] at hks
    simp [mhas, mget] at hks

/-- C10 (as amended): in the music-timeline game every public membership
operation preserves the player/spectator disjointness unconditionally; in
the draw-and-guess game every public operation preserves it as well,
provided `addSpectator` is only invoked on ids that are not current
players — which its only in-repo caller, `addPlayer`, guarantees.  A
direct draw-and-guess `addSpectator` call on a current player violates the
invariant (see the counterexample). -/
theorem membership_maps_disjointness_preserved :
    (∀ (op : PicOp) (r : PicRoom), picDisjoint r → picOpGuard op r →
      picDisjoint (PicOp.apply op r)) ∧
    (∀ (op : HitOp) (r : HitsterRoom), hitDisjoint r →
      hitDisjoint (HitOp.apply op r)) := by
  constructor
  · intro op r hd hg
    cases op with
    | addP p =>
      intro k hk
      obtain ⟨hkp, hks⟩ := hk
      have hkp2 : mhas (Pict.addPlayer r p).2.players k = true := hkp
      have hks2 : mhas (Pict.addPlayer r p).2.spectators k = true := hks
      rcases addPlayer_cases r p with
        ⟨ex, hm, hpl, hsp⟩ | ⟨sp, hm, hms, hpl, hsp⟩ | heq |
        ⟨hm, hms, hpl, hsp⟩ | ⟨hm, hms, hpl, hsp⟩
      · rw [hpl] at hkp2
        rw [hsp] at hks2
        rcases (mhas_mset _ _ _ _).mp hkp2 with heq2 | hmem
        · have hpk : mhas r.players k = true := by
            rw [← heq2, mhas, hm]
            rfl
          exact hd k ⟨hpk, hks2⟩
        · exact hd k ⟨hmem, hks2⟩
      · rw [hpl] at hkp2
        rw [hsp] at hks2
        rcases (mhas_mset _ _ _ _).mp hks2 with heq2 | hmem
        · have hsk : mhas r.spectators k = true := by
            rw [← heq2, mhas, hms]
            rfl
          exact hd k ⟨hkp2, hsk⟩
        · exact hd k ⟨hkp2, hmem⟩
      · rw [heq] at hkp2 hks2
        exact hd k ⟨hkp2, hks2⟩
      · rw [hpl] at hkp2
        rw [hsp] at hks2
        rcases (mhas_mset _ _ _ _).mp hks2 with heq2 | hmem
        · rw [← heq2, mhas, hm] at hkp2
          simp at hkp2
        · exact hd k ⟨hkp2, hmem⟩
      · rw [hpl] at hkp2
        rw [hsp] at hks2
        rcases (mhas_mset _ _ _ _).mp hkp2 with heq2 | hmem
        · rw [← heq2, mhas, hms] at hks2
          simp at hks2
        · exact hd k ⟨hmem, hks2⟩
    | addS p =>
      intro k hk
      obtain ⟨hkp, hks⟩ := hk
      have hg2 : mhas r.players p.id = false := hg
      have hkp2 : mhas (Pict.addSpectator r p).2.players k = true := hkp
      have hks2 : mhas (Pict.addSpectator r p).2.spectators k = true := hks
      unfold Pict.addSpectator at hkp2 hks2
      dsimp only at hkp2 hks2
      rcases (mhas_mset _ _ _ _).mp hks2 with heq2 | hmem
      · rw [← heq2] at hkp2
        rw [hkp2] at hg2
        simp at hg2
      · exact hd k ⟨hkp2, hmem⟩
    | promote q =>
      intro k hk
      obtain ⟨hkp, hks⟩ := hk
      have hkp2 : mhas (promoteSpectatorToPlayer r q).2.players k = true :=
        hkp
      have hks2 : mhas (promoteSpectatorToPlayer r q).2.spectators k =
          true := hks
      rcases promote_cases r q with heq | ⟨sp, hm, hw, hpl, hsp⟩
      · rw [heq] at hkp2 hks2
        exact hd k ⟨hkp2, hks2⟩
      · rw [hpl] at hkp2
        rw [hsp] at hks2
        have hdel := (mhas_mdel _ _ _).mp hks2
        rcases (mhas_mset _ _ _ _).mp hkp2 with heq2 | hmem
        · exact hdel.2 heq2
        · exact hd k ⟨hmem, hdel.1⟩
    | removeP i =>
      intro k hk
      obtain ⟨hkp, hks⟩ := hk
      have hkp2 : mhas (Pict.removePlayer r i).players k = true := hkp
      have hks2 : mhas (Pict.removePlayer r i).spectators k = true := hks
      rcases removePlayer_cases r i with ⟨hpl, hsp | hsp⟩ | ⟨hpl, hsp⟩
      · rw [hpl] at hkp2
        rw [hsp] at hks2
        exact hd k ⟨hkp2, hks2⟩
      · rw [hpl] at hkp2
        rw [hsp] at hks2
        exact hd k ⟨hkp2, ((mhas_mdel _ _ _).mp hks2).1⟩
      · rw [hpl] at hkp2
        rw [hsp] at hks2
        exact hd k ⟨((mhas_mdel _ _ _).mp hkp2).1, hks2⟩
    | reset =>
      show picDisjoint (resetAfterEnd r)
      unfold resetAfterEnd
      dsimp only
      apply promoteLoop_disjoint
      intro k hk
      obtain ⟨hkp, hks⟩ := hk
      rw [mhas_mapValues] at hkp
      exact hd k ⟨hkp, hks⟩
  · intro op r hd
    cases op with
    | addP uid uname =>
      intro k hk
      obtain ⟨hkp, hks⟩ := hk
      have hkp2 : mhas (Hitster.addPlayer r uid uname).2.players k = true :=
        hkp
      have hks2 : mhas (Hitster.addPlayer r uid uname).2.spectators k =
          true := hks
      rcases hit_addPlayer_cases r uid uname with
        ⟨ex, hm, hpl, hsp⟩ | ⟨sp, hm, hms, hpl, hsp⟩ | ⟨heq, hm⟩ |
        heq | ⟨hm, hms, hpl, hsp⟩
      · rw [hpl] at hkp2
        rw [hsp] at hks2
        rcases (mhas_mset _ _ _ _).mp hkp2 with heq2 | hmem
        · have hpk : mhas r.players k = true := by
            rw [← heq2, mhas, hm]
            rfl
          exact hd k ⟨hpk, hks2⟩
        · exact hd k ⟨hmem, hks2⟩
      · rw [hpl] at hkp2
        rw [hsp] at hks2
        rcases (mhas_mset _ _ _ _).mp hks2 with heq2 | hmem
        · have hsk : mhas r.spectators k = true := by
            rw [← heq2, mhas, hms]
            rfl
          exact hd k ⟨hkp2, hsk⟩
        · exact hd k ⟨hkp2, hmem⟩
      · rw [heq] at hkp2 hks2
        rcases hit_addSpectator_cases r uid uname with ⟨heq3, _⟩ |
          ⟨hno, hpl, hsp⟩
        · rw [heq3] at hkp2 hks2
          exact hd k ⟨hkp2, hks2⟩
        · rw [hpl] at hkp2
          rw [hsp] at hks2
          rcases (mhas_mset _ _ _ _).mp hks2 with heq2 | hmem
          · rw [← heq2] at hkp2
            rw [hkp2] at hno
            simp at hno
          · exact hd k ⟨hkp2, hmem⟩
      · rw [heq] at hkp2 hks2
        exact hd k ⟨hkp2, hks2⟩
      · rw [hpl] at hkp2
        rw [hsp] at hks2
        rcases (mhas_mset _ _ _ _).mp hkp2 with heq2 | hmem
        · rw [← heq2, mhas, hms] at hks2
          simp at hks2
        · exact hd k ⟨hmem, hks2⟩
    | addS uid uname =>
      intro k hk
      obtain ⟨hkp, hks⟩ := hk
      have hkp2 : mhas (Hitster.addSpectator r uid uname).2.players k =
          true := hkp
      have hks2 : mhas (Hitster.addSpectator r uid uname).2.spectators k =
          true := hks
      rcases hit_addSpectator_cases r uid uname with ⟨heq, _⟩ |
        ⟨hno, hpl, hsp⟩
      · rw [heq] at hkp2 hks2
        exact hd k ⟨hkp2, hks2⟩
      · rw [hpl] at hkp2
        rw [hsp] at hks2
        rcases (mhas_mset _ _ _ _).mp hks2 with heq2 | hmem
        · rw [← heq2] at hkp2
          rw [hkp2] at hno
          simp at hno
        · exact hd k ⟨hkp2, hmem⟩
    | removeP uid =>
      intro k hk
      obtain ⟨hkp, hks⟩ := hk
      have hkp2 : mhas (Hitster.removePlayer r uid).2.players k = true :=
        hkp
      have hks2 : mhas (Hitster.removePlayer r uid).2.spectators k =
          true := hks
      rw [(hit_removePlayer_maps r uid).1] at hkp2
      rw [(hit_removePlayer_maps r uid).2] at hks2
      exact hd k ⟨((mhas_mdel _ _ _).mp hkp2).1,
        ((mhas_mdel _ _ _).mp hks2).1⟩

/-- Witness for C10 (amended): a guarded direct `addSpectator` on the
concrete two-player waiting room keeps the maps disjoint. -/
theorem membership_maps_disjointness_preserved_witness :
    picDisjoint (PicOp.apply (PicOp.addS playerC) picBaseRoom) :=
  membership_maps_disjointness_preserved.1 (PicOp.addS playerC) picBaseRoom
    (fun k hk => by
      have hks := hk.2
      rw [show picBaseRoom.spectators = [] from rfl] at hks
      simp [mhas, mget] at hks)
    (by
      show mhas picBaseRoom.players "C" = false
      rfl)

end ClaimC10

end JerryBot
